import Mathlib

/-!
Greeter deployment tool: the deploy-or-reuse decision and the artifact cache.

A shallow embedding of the Go sources `file_utils.go`, `eth_interaction.go`,
`contract_compiler.go`, `contract_interaction.go`, `main.go` and the decoding
part of `client.go`, followed by the properties proved of them.

Conventions of the embedding:

* Go `string` and `[]byte` values that the program processes are lists of
  bytes (`GoString`); a `uint64` is a natural number and conversions wrap
  explicitly (`int64`); a `*big.Int` is an integer.
* The operating system, the compiler and the chain client are collaborators
  outside the sources.  The file system is a tree model of the working
  directory with the usual POSIX outcomes of `stat`, `open` and `mkdir`; the
  other collaborators are a record `Env` of their answers.
* Every call that leaves the process (system call, child process, RPC) is
  appended to the trace of the `World`, so that "no deployment was submitted"
  is a statement about the trace.  Output on the terminal is not traced.
* `log.Fatalf` and a run-time panic end the run: `Outcome.fatal` carries the
  message and the world at exit.
-/

set_option autoImplicit false

namespace Greeter

/-! ## Bytes and Go strings -/

/-- One octet. -/
abbrev Byte := Fin 256

/-- Go string: an immutable sequence of bytes (also used for `[]byte`). -/
abbrev GoString := List Byte

/-- Bytes of an ASCII literal of the sources. -/
def ascii (s : String) : GoString :=
  s.data.map (fun c => Fin.ofNat c.toNat)

/-! ## File system model (collaborator: package `os` / `io/ioutil`) -/

/-- Path relative to the working directory, as its components:
`"cache/address"` is `["cache", "address"]`. -/
abbrev Path := List String

/-- Error numbers the model distinguishes. -/
inductive Errno
  | ENOENT
  | EACCES
  | ENOTDIR
  | EISDIR
  | EEXIST
  | ELOOP
  deriving DecidableEq, Repr

/-- Access the process has to a node.  For a file: none, read, read and write.
For a directory: none, search, search and create entries.  The levels are
cumulative: what can be written can be read (write-only modes are left out). -/
inductive Access
  | none
  | readOnly
  | readWrite
  deriving DecidableEq, Repr

/-- File system node: a regular file, a directory, or a symbolic link that
points to itself (every call that follows it fails with ELOOP). -/
inductive Node
  | file (data : GoString) (acc : Access)
  | dir (entries : String → Option Node) (acc : Access)
  | loop

/-- Directory entries with `name` bound to `n`. -/
def setEntry (es : String → Option Node) (name : String) (n : Node) : String → Option Node :=
  fun k => if k = name then some n else es k

/-- Path resolution from node `n`. -/
def lookup : Path → Node → Except Errno Node
  | _, .loop => .error .ELOOP
  | [], .file data acc => .ok (.file data acc)
  | [], .dir es acc => .ok (.dir es acc)
  | _ :: _, .file _ _ => .error .ENOTDIR
  | c :: cs, .dir es acc =>
    if acc = .none then .error .EACCES
    else match es c with
      | none => .error .ENOENT
      | some m => lookup cs m

/-- Effect of `open(O_WRONLY|O_CREATE|O_TRUNC, 0644)` followed by a full write:
an existing writable file is truncated and rewritten (its mode is kept), a
missing file is created in a writable directory. -/
def writeNode : Path → GoString → Node → Except Errno Node
  | [], data, .file _ acc =>
    if acc = .readWrite then .ok (.file data acc) else .error .EACCES
  | [], _, .dir _ _ => .error .EISDIR
  | _, _, .loop => .error .ELOOP
  | _ :: _, _, .file _ _ => .error .ENOTDIR
  | c :: cs, data, .dir es acc =>
    if acc = .none then .error .EACCES
    else match es c with
      | none =>
        match cs with
        | [] =>
          if acc = .readWrite then .ok (.dir (setEntry es c (.file data .readWrite)) acc)
          else .error .EACCES
        | _ :: _ => .error .ENOENT
      | some m =>
        match writeNode cs data m with
        | .ok m2 => .ok (.dir (setEntry es c m2) acc)
        | .error e => .error e

/-- Effect of `mkdir(name, 0755)`: a new empty directory in a writable parent. -/
def mkdirNode : Path → Node → Except Errno Node
  | [], _ => .error .EEXIST
  | _ :: _, .loop => .error .ELOOP
  | _ :: _, .file _ _ => .error .ENOTDIR
  | c :: cs, .dir es acc =>
    if acc = .none then .error .EACCES
    else match es c with
      | none =>
        match cs with
        | [] =>
          if acc = .readWrite then
            .ok (.dir (setEntry es c (.dir (fun _ => Option.none) .readWrite)) acc)
          else .error .EACCES
        | _ :: _ => .error .ENOENT
      | some m =>
        match mkdirNode cs m with
        | .ok m2 => .ok (.dir (setEntry es c m2) acc)
        | .error e => .error e

/-- Content returned by reading node `n` whole. -/
def readNode : Node → Except Errno GoString
  | .file data acc => if acc = .none then .error .EACCES else .ok data
  | .dir _ _ => .error .EISDIR
  | .loop => .error .ELOOP

/-! ## Chain-side values (collaborator: go-ethereum) -/

/-- Account or contract address: `common.Address`, an array of 20 bytes. -/
structure Address where
  bytes : GoString
  size : bytes.length = 20
  deriving DecidableEq

/-- Signing key; only its identity matters here. -/
abbrev PrivateKey := Nat

/-- Transaction hash, as the client reports it. -/
abbrev Hash := GoString

/-- Contract interface after `abi.JSON` has parsed it. -/
structure ABI where
  json : GoString
  deriving DecidableEq

/-- The fields of `bind.TransactOpts` that the sources set.  `GasLimit` is a
`uint64`; `Nonce`, `Value` and `GasPrice` are `*big.Int`.  `ChainID` is present
when the transactor was made by `NewKeyedTransactorWithChainID`. -/
structure TransactOpts where
  Signer : PrivateKey
  ChainID : Option Int
  Nonce : Option Int
  Value : Option Int
  GasLimit : Nat
  GasPrice : Option Int
  deriving DecidableEq

/-! ## World, trace and outcomes -/

/-- Call that leaves the process. -/
inductive Event
  | stat (name : Path)
  | mkdir (name : Path)
  | readFile (name : Path)
  | writeFile (name : Path) (data : GoString)
  | solc (filePath : Path)
  | balanceAt (account : Address)
  | pendingNonceAt (account : Address)
  | suggestGasPrice
  | deployContract (auth : TransactOpts) (parsedABI : ABI) (bytecode : GoString)
      (initialGreeting : GoString)
  | transact (contract : Address) (auth : TransactOpts) (method : GoString) (arg : GoString)
  | call (contract : Address) (method : GoString)
  | callContract (contract : Address) (data : GoString)
  deriving DecidableEq

/-- State outside the process: the working directory and the calls made so far,
oldest first. -/
structure World where
  fs : Node
  trace : List Event

/-- World after call `e` has been made. -/
def World.record (w : World) (e : Event) : World :=
  { w with trace := w.trace ++ [e] }

/-- Result of a run fragment: it returns `val`, or `log.Fatalf` ends the process. -/
inductive Outcome (α : Type)
  | ok (val : α) (w : World)
  | fatal (msg : String) (w : World)

/-- World in which the fragment ended. -/
def Outcome.world {α : Type} : Outcome α → World
  | .ok _ w => w
  | .fatal _ w => w

/-- Whether the fragment ended in `log.Fatalf`. -/
def Outcome.isFatal {α : Type} : Outcome α → Bool
  | .ok _ _ => false
  | .fatal _ _ => true

/-- Whether event `e` is a contract deployment. -/
def Event.isDeploy : Event → Bool
  | .deployContract _ _ _ _ => true
  | _ => false

/-- Whether event `e` is any call to the chain client. -/
def Event.isChainCall : Event → Bool
  | .stat _ => false
  | .mkdir _ => false
  | .readFile _ => false
  | .writeFile _ _ => false
  | .solc _ => false
  | _ => true

/-! ## Package `os`, `io/ioutil`, `path/filepath` over the model -/

namespace os

/-- Model of `os.Stat`: the error, `none` for nil (the FileInfo is never used). -/
def Stat (name : Path) (w : World) : Option Errno × World :=
  match lookup name w.fs with
  | .ok _ => (none, w.record (.stat name))
  | .error e => (some e, w.record (.stat name))

/-- Model of `os.IsNotExist`. -/
def IsNotExist (err : Option Errno) : Bool :=
  err = some .ENOENT

/-- Model of `os.Mkdir(name, 0755)`. -/
def Mkdir (name : Path) (w : World) : Option Errno × World :=
  match mkdirNode name w.fs with
  | .ok fs2 => (none, { fs := fs2, trace := w.trace ++ [.mkdir name] })
  | .error e => (some e, w.record (.mkdir name))

end os

namespace ioutil

/-- Model of `ioutil.ReadFile`. -/
def ReadFile (filename : Path) (w : World) : Except Errno GoString × World :=
  match lookup filename w.fs with
  | .ok n => (readNode n, w.record (.readFile filename))
  | .error e => (.error e, w.record (.readFile filename))

/-- Model of `ioutil.WriteFile(filename, data, 0644)`. -/
def WriteFile (filename : Path) (data : GoString) (w : World) : Option Errno × World :=
  match writeNode filename data w.fs with
  | .ok fs2 => (none, { fs := fs2, trace := w.trace ++ [.writeFile filename data] })
  | .error e => (some e, w.record (.writeFile filename data))

end ioutil

namespace filepath

/-- Model of `filepath.Join(dir, name)` for a single component `name`. -/
def Join (dir : Path) (name : String) : Path :=
  dir ++ [name]

end filepath

/-! ## file_utils.go -/

/-- Go: `loadFromFile`. -/
def loadFromFile (filename : Path) (w : World) : Except Errno GoString × World :=
  match ioutil.ReadFile filename w with
  | (.error err, w1) => (.error err, w1)
  | (.ok data, w1) => (.ok data, w1)

/-- Go: `saveToFile`. -/
def saveToFile (filename : Path) (data : GoString) (w : World) : Option Errno × World :=
  ioutil.WriteFile filename data w

/-- Go: `saveContractArtifacts`.  The closing `fmt.Println` is not traced. -/
def saveContractArtifacts (bin : GoString) (abiBytes : GoString) (w : World) : Outcome Unit :=
  let cacheDir : Path := ["cache"]
  let st := os.Stat cacheDir w
  let made : Outcome Unit :=
    if os.IsNotExist st.1 then
      match os.Mkdir cacheDir st.2 with
      | (some _, w1) => .fatal "Failed to create cache directory" w1
      | (none, w1) => .ok () w1
    else .ok () st.2
  match made with
  | .fatal msg w1 => .fatal msg w1
  | .ok _ w1 =>
    match saveToFile (filepath.Join cacheDir "Greeter.bin") bin w1 with
    | (some _, w2) => .fatal "Failed to save bytecode" w2
    | (none, w2) =>
      match saveToFile (filepath.Join cacheDir "Greeter.abi") abiBytes w2 with
      | (some _, w3) => .fatal "Failed to save ABI" w3
      | (none, w3) => .ok () w3

/-- Go: `saveAddressToFile`. -/
def saveAddressToFile (address : GoString) (w : World) : Outcome Unit :=
  let addressFilePath : Path := ["cache", "address"]
  match saveToFile addressFilePath address w with
  | (some _, w1) => .fatal "Failed to save contract address" w1
  | (none, w1) => .ok () w1

/-! ## Package `common` of go-ethereum (collaborator, modelled after its source) -/

namespace common

/-- Model of `has0xPrefix`: the string starts with `0x` or `0X`. -/
def has0xPrefix (str : GoString) : Bool :=
  match str with
  | a :: b :: _ => a.val == 0x30 && (b.val == 0x78 || b.val == 0x58)
  | _ => false

/-- Model of `isHexCharacter`. -/
def isHexCharacter (c : Byte) : Bool :=
  (0x30 ≤ c.val && c.val ≤ 0x39) || (0x61 ≤ c.val && c.val ≤ 0x66) ||
    (0x41 ≤ c.val && c.val ≤ 0x46)

/-- Model of `isHex`: even length and hexadecimal characters only. -/
def isHex (str : GoString) : Bool :=
  if str.length % 2 != 0 then false else str.all isHexCharacter

/-- Model of `common.IsHexAddress`. -/
def IsHexAddress (s : GoString) : Bool :=
  let s1 := if has0xPrefix s then s.drop 2 else s
  s1.length == 2 * 20 && isHex s1

/-- Value of a hexadecimal digit (the reverse table of `encoding/hex`). -/
def fromHexChar (c : Byte) : Option Nat :=
  if 0x30 ≤ c.val ∧ c.val ≤ 0x39 then some (c.val - 0x30)
  else if 0x61 ≤ c.val ∧ c.val ≤ 0x66 then some (c.val - 0x61 + 10)
  else if 0x41 ≤ c.val ∧ c.val ≤ 0x46 then some (c.val - 0x41 + 10)
  else none

/-- Model of `common.Hex2Bytes`: `hex.DecodeString` with its error dropped, that
is the bytes decoded before the first invalid character or dangling digit. -/
def Hex2Bytes : GoString → GoString
  | p :: q :: rest =>
    match fromHexChar p, fromHexChar q with
    | some a, some b => Fin.ofNat (a * 16 + b) :: Hex2Bytes rest
    | _, _ => []
  | _ => []

/-- Model of `common.FromHex`. -/
def FromHex (s : GoString) : GoString :=
  let s1 := if has0xPrefix s then s.drop 2 else s
  let s2 := if s1.length % 2 = 1 then (0x30 : Byte) :: s1 else s1
  Hex2Bytes s2

/-- The slice `b[len(b)-20:]` taken by `Address.SetBytes` when `b` is longer
than an address. -/
def cropLeft (b : GoString) : GoString :=
  if b.length > 20 then b.drop (b.length - 20) else b

/-- Model of `common.BytesToAddress`: the last 20 bytes, left-padded with zeros. -/
def BytesToAddress (b : GoString) : Address :=
  { bytes := List.replicate (20 - (cropLeft b).length) 0 ++ cropLeft b
    size := by
      have h : (cropLeft b).length ≤ 20 := by
        unfold cropLeft
        split
        · simp only [List.length_drop]; omega
        · omega
      simp only [List.length_append, List.length_replicate]
      omega }

/-- Model of `common.HexToAddress`. -/
def HexToAddress (s : GoString) : Address :=
  BytesToAddress (FromHex s)

/-- The digit table of `encoding/hex`. -/
def hextable : GoString := ascii "0123456789abcdef"

/-- Model of `hex.Encode`. -/
def hexEncode : GoString → GoString
  | [] => []
  | b :: bs => hextable.getD (b.val / 16) 0 :: hextable.getD (b.val % 16) 0 :: hexEncode bs

/-- Model of `Address.hex`: `0x` and the 40 lower-case digits. -/
def hex (a : Address) : GoString :=
  ascii "0x" ++ hexEncode a.bytes

/-- One step of the checksum loop of `Address.checksumHex` at buffer index `i`:
a letter digit is put in upper case when the matching hash nibble exceeds 7. -/
def checksumByte (hash : GoString) (i : Nat) (c : Byte) : Byte :=
  let hashByte := hash.getD ((i - 2) / 2) 0
  let nibble := if i % 2 = 0 then hashByte.val / 16 else hashByte.val % 16
  if c.val > 0x39 ∧ nibble > 7 then c - 32 else c

/-- The checksum loop from buffer index `i` on. -/
def checksumFrom (hash : GoString) : Nat → GoString → GoString
  | _, [] => []
  | i, c :: cs => checksumByte hash i c :: checksumFrom hash (i + 1) cs

/-- Model of `Address.Hex` (EIP-55 text); `keccak256` is the legacy Keccak-256
digest, a parameter here. -/
def Hex (keccak256 : GoString → GoString) (a : Address) : GoString :=
  let buf := hex a
  let hash := keccak256 (buf.drop 2)
  buf.take 2 ++ checksumFrom hash 2 (buf.drop 2)

end common

/-! ## Compiler output (contract_compiler.go, client.go) -/

/-- Go `json.RawMessage`: nil, or the raw bytes of one JSON value. -/
abbrev RawMessage := Option GoString

/-- Entry type of `CompilationResult.Contracts`. -/
structure Contract where
  ABI : RawMessage
  Bin : GoString
  Metadata : GoString
  deriving DecidableEq

/-- Go: `CompilationResult`.  The Go map is given as its entries in the order in
which this run's `range` visits them (Go leaves the order unspecified, so every
order of the entries is a possible value). -/
structure CompilationResult where
  Contracts : List (GoString × Contract)
  deriving DecidableEq

/-- Go `interface` values that a bound call can hand back. -/
inductive GoValue
  | str (s : GoString)
  | other
  deriving DecidableEq

/-! ## Environment: answers of the collaborators -/

/-- Answers of everything outside the sources.  An `Except String` answer is
the Go pair of a value and an `error`. -/
structure Env where
  godotenvLoad : Except String Unit
  INFURA_URL : GoString
  PRIVATE_KEY : GoString
  dial : GoString → Except String Unit
  hexToECDSA : GoString → Except String PrivateKey
  pubkeyToAddress : PrivateKey → Address
  balanceAt : Address → Except String Int
  pendingNonceAt : Address → Except String Nat
  suggestGasPrice : Except String Int
  solc : Path → Except String GoString
  jsonUnmarshal : GoString → Except String CompilationResult
  jsonMarshal : RawMessage → Except String GoString
  abiJSON : GoString → Except String ABI
  deployContract : TransactOpts → ABI → GoString → GoString → Except String (Address × Hash)
  transact : Address → TransactOpts → GoString → GoString → Except String Hash
  call : Address → GoString → Except String (List GoValue)
  callContract : Address → GoString → Except String GoString
  keccak256 : GoString → GoString

/-! ## Package `bind` and the RPC client of go-ethereum -/

namespace bind

/-- Model of `bind.NewKeyedTransactor`. -/
def NewKeyedTransactor (key : PrivateKey) : TransactOpts :=
  { Signer := key, ChainID := none, Nonce := none, Value := none, GasLimit := 0,
    GasPrice := none }

/-- Model of `bind.NewKeyedTransactorWithChainID`: it fails on a nil chain id. -/
def NewKeyedTransactorWithChainID (key : PrivateKey) (chainID : Option Int) :
    Except String TransactOpts :=
  match chainID with
  | none => .error "no chain id specified"
  | some c =>
    .ok { Signer := key, ChainID := some c, Nonce := none, Value := none, GasLimit := 0,
          GasPrice := none }

/-- Model of `bind.DeployContract`: the deployment is handed to the client; the
answer is the new address and the transaction hash, or an error. -/
def DeployContract (env : Env) (opts : TransactOpts) (parsedABI : ABI) (bytecode : GoString)
    (param : GoString) (w : World) : Except String (Address × Hash) × World :=
  (env.deployContract opts parsedABI bytecode param,
    w.record (.deployContract opts parsedABI bytecode param))

/-- Model of `BoundContract.Transact` with one string argument. -/
def Transact (env : Env) (contract : Address) (opts : TransactOpts) (method : GoString)
    (arg : GoString) (w : World) : Except String Hash × World :=
  (env.transact contract opts method arg, w.record (.transact contract opts method arg))

/-- Model of `BoundContract.Call` without arguments. -/
def Call (env : Env) (contract : Address) (method : GoString) (w : World) :
    Except String (List GoValue) × World :=
  (env.call contract method, w.record (.call contract method))

end bind

namespace ethclient

/-- Model of `Client.BalanceAt` for the latest block. -/
def BalanceAt (env : Env) (account : Address) (w : World) : Except String Int × World :=
  (env.balanceAt account, w.record (.balanceAt account))

/-- Model of `Client.PendingNonceAt`. -/
def PendingNonceAt (env : Env) (account : Address) (w : World) : Except String Nat × World :=
  (env.pendingNonceAt account, w.record (.pendingNonceAt account))

/-- Model of `Client.SuggestGasPrice`. -/
def SuggestGasPrice (env : Env) (w : World) : Except String Int × World :=
  (env.suggestGasPrice, w.record .suggestGasPrice)

/-- Model of `Client.CallContract` for the latest block. -/
def CallContract (env : Env) (contract : Address) (data : GoString) (w : World) :
    Except String GoString × World :=
  (env.callContract contract data, w.record (.callContract contract data))

end ethclient

/-! ## eth_interaction.go -/

/-- Go conversion `int64(n)` of a `uint64`: two's complement reinterpretation. -/
def int64 (n : Nat) : Int :=
  if n % 2 ^ 64 < 2 ^ 63 then ((n % 2 ^ 64 : Nat) : Int) else ((n % 2 ^ 64 : Nat) : Int) - 2 ^ 64

/-- Go: `createTransactor`. -/
def createTransactor (privateKey : PrivateKey) (nonce : Nat) (gasPrice : Int) : TransactOpts :=
  let auth := bind.NewKeyedTransactor privateKey
  { auth with
    Nonce := some (int64 nonce)
    Value := some 0
    GasLimit := 3000000
    GasPrice := some gasPrice }

/-- Go: `calculateTransactionCost`, `new(big.Int).Mul(big.NewInt(int64(gasLimit)), gasPrice)`. -/
def calculateTransactionCost (gasLimit : Nat) (gasPrice : Int) : Int :=
  int64 gasLimit * gasPrice

/-- Go: `deployOrLoadContract`.  The `log.Printf` lines are not traced. -/
def deployOrLoadContract (env : Env) (auth : TransactOpts) (parsedABI : ABI) (bin : GoString)
    (initialGreeting : GoString) (w : World) : Outcome Address :=
  let addressFilePath : Path := ["cache", "address"]
  match os.Stat addressFilePath w with
  | (none, w1) =>
    match loadFromFile addressFilePath w1 with
    | (.error _, w2) => .fatal "Failed to load contract address" w2
    | (.ok address, w2) => .ok (common.HexToAddress address) w2
  | (some _, w1) =>
    let bytecode := common.FromHex bin
    match bind.DeployContract env auth parsedABI bytecode initialGreeting w1 with
    | (.error _, w2) => .fatal "Failed to deploy contract" w2
    | (.ok (address, _), w2) =>
      match saveToFile addressFilePath (common.Hex env.keccak256 address) w2 with
      | (some _, w3) => .fatal "Failed to save contract address" w3
      | (none, w3) => .ok address w3

/-! ## contract_compiler.go -/

/-- Go: `compileContract`.  `exec.Command(...).Run` is the environment's `solc`. -/
def compileContract (env : Env) (filePath : Path) (w : World) :
    Except String (GoString × GoString) × World :=
  let w1 := w.record (.solc filePath)
  match env.solc filePath with
  | .error _ => (.error "failed to compile contract", w1)
  | .ok out =>
    match env.jsonUnmarshal out with
    | .error _ => (.error "failed to parse solc output", w1)
    | .ok result =>
      match result.Contracts with
      | (_, contract) :: _ =>
        match env.jsonMarshal contract.ABI with
        | .error _ => (.error "failed to marshal ABI", w1)
        | .ok abiBytes => (.ok (contract.Bin, abiBytes), w1)
      | [] => (.error "no contract found in solc output", w1)

/-! ## contract_interaction.go -/

/-- Go: `interactWithContract` of contract_interaction.go.  A failed index or
type assertion on `result[0].(string)` panics, which ends the run as well. -/
def interactWithContract (env : Env) (contractAddress : Address) (privateKey : PrivateKey)
    (w : World) : Outcome Unit :=
  match bind.NewKeyedTransactorWithChainID privateKey (some 296) with
  | .error _ => .fatal "Failed to create transactor" w
  | .ok auth0 =>
    let auth := { auth0 with GasLimit := 3000000 }
    let newGreeting := ascii "Hello, Ethereum!"
    match bind.Transact env contractAddress auth (ascii "setGreeting") newGreeting w with
    | (.error _, w1) => .fatal "Failed to set greeting" w1
    | (.ok _, w1) =>
      match bind.Call env contractAddress (ascii "greet") w1 with
      | (.error _, w2) => .fatal "Failed to get greeting" w2
      | (.ok result, w2) =>
        match result with
        | .str _ :: _ => .ok () w2
        | .other :: _ => .fatal "panic: interface conversion" w2
        | [] => .fatal "panic: index out of range" w2

/-! ## main.go -/

/-- Model of `strings.TrimPrefix(s, "0x")`. -/
def trimPrefix0x (s : GoString) : GoString :=
  match s with
  | a :: b :: rest => if a.val = 0x30 ∧ b.val = 0x78 then rest else s
  | _ => s

/-- Go: `main` of main.go.  The type assertion on the public key of an ECDSA
private key always succeeds, so its `log.Fatal` branch is left out; the address
of the key is the environment's `pubkeyToAddress`. -/
def main (env : Env) (w : World) : Outcome Unit :=
  match env.godotenvLoad with
  | .error _ => .fatal "Error loading .env file" w
  | .ok _ =>
    let infuraURL := env.INFURA_URL
    let privateKeyHex := env.PRIVATE_KEY
    match env.dial infuraURL with
    | .error e => .fatal e w
    | .ok _ =>
      let privateKeyHex := trimPrefix0x privateKeyHex
      match env.hexToECDSA privateKeyHex with
      | .error _ => .fatal "Failed to parse private key" w
      | .ok privateKey =>
        let fromAddress := env.pubkeyToAddress privateKey
        match ethclient.BalanceAt env fromAddress w with
        | (.error _, w1) => .fatal "Failed to get balance" w1
        | (.ok balance, w1) =>
          match ethclient.PendingNonceAt env fromAddress w1 with
          | (.error _, w2) => .fatal "Failed to get nonce" w2
          | (.ok nonce, w2) =>
            match ethclient.SuggestGasPrice env w2 with
            | (.error _, w3) => .fatal "Failed to get gas price" w3
            | (.ok gasPrice, w3) =>
              match compileContract env ["contracts", "Greeter.sol"] w3 with
              | (.error _, w4) => .fatal "Failed to compile contract" w4
              | (.ok (bin, abiBytes), w4) =>
                match saveContractArtifacts bin abiBytes w4 with
                | .fatal msg w5 => .fatal msg w5
                | .ok _ w5 =>
                  match env.abiJSON abiBytes with
                  | .error _ => .fatal "Failed to parse ABI" w5
                  | .ok parsedABI =>
                    let auth := createTransactor privateKey nonce gasPrice
                    let totalCost := calculateTransactionCost auth.GasLimit gasPrice
                    if balance < totalCost then .fatal "Insufficient funds" w5
                    else
                      let initialGreeting := ascii "Hello, World!"
                      match deployOrLoadContract env auth parsedABI bin initialGreeting w5 with
                      | .fatal msg w6 => .fatal msg w6
                      | .ok contractAddress w6 =>
                        interactWithContract env contractAddress privateKey w6

/-! ## client.go: reading the greeting from the raw call result -/

/-- Go slice expression `s[lo:hi]` on a byte slice whose capacity is its length
(as for the result the RPC client decodes); `none` is the run-time panic
"slice bounds out of range". -/
def slice (s : GoString) (lo hi : Int) : Option GoString :=
  if 0 ≤ lo ∧ lo ≤ hi ∧ hi ≤ (s.length : Int) then
    some ((s.drop lo.toNat).take (hi.toNat - lo.toNat))
  else none

/-- Model of `new(big.Int).SetBytes(buf)`: the big-endian unsigned value. -/
def setBytes (buf : GoString) : Nat :=
  buf.foldl (fun acc b => acc * 256 + b.val) 0

/-- Go `int64` addition, which wraps around. -/
def addInt64 (a b : Int) : Int :=
  int64 ((a + b) % 2 ^ 64).toNat

/-- Model of `strings.TrimRight(s, "\x00")`: the trailing NUL bytes are cut. -/
def trimRightNul (s : GoString) : GoString :=
  s.rdropWhile (fun b => b.val == 0)

namespace client

/-- Lines 203 to 205 of client.go: the length word `res[32:64]` read as an
`int64`, the payload `res[64 : 64+length]`, then the trailing NUL trim. -/
def decodeGreeting (res : GoString) : Option GoString :=
  match slice res 32 64 with
  | none => none
  | some word =>
    let length := int64 (setBytes word)
    match slice res 64 (addInt64 64 length) with
    | none => none
    | some greeting => some (trimRightNul greeting)

/-- Go: `interactWithContract` of client.go.  The error of
`NewKeyedTransactorWithChainID` is not looked at there; with the constant chain
id 296 there is none. -/
def interactWithContract (env : Env) (contractAddress : Address) (privateKey : PrivateKey)
    (w : World) : Outcome GoString :=
  match bind.NewKeyedTransactorWithChainID privateKey (some 296) with
  | .error _ => .fatal "panic: nil pointer dereference" w
  | .ok auth0 =>
    let auth := { auth0 with GasLimit := 3000000 }
    let newGreeting := ascii "Hello, Ethereum!"
    match bind.Transact env contractAddress auth (ascii "setGreeting") newGreeting w with
    | (.error _, w1) => .fatal "Failed to set greeting" w1
    | (.ok _, w1) =>
      match ethclient.CallContract env contractAddress (common.FromHex (ascii "0xcfae3217")) w1 with
      | (.error _, w2) => .fatal "Failed to get greeting" w2
      | (.ok res, w2) =>
        match decodeGreeting res with
        | none => .fatal "panic: slice bounds out of range" w2
        | some greeting => .ok greeting w2

end client

/-! ## Solidity ABI encoding of a returned string (the contract's side) -/

/-- Big-endian bytes of `n` in `width` bytes (the low `width` bytes of `n`). -/
def toBigEndian : Nat → Nat → GoString
  | 0, _ => []
  | width + 1, n => toBigEndian width (n / 256) ++ [Fin.ofNat (n % 256)]

/-- ABI encoding of the single return value `s` of type `string`: the offset
word 32, the length word, and the bytes of `s` padded with zeros to a multiple
of 32. -/
def abiEncodeString (s : GoString) : GoString :=
  toBigEndian 32 32 ++ toBigEndian 32 s.length ++ s ++
    List.replicate ((32 - s.length % 32) % 32) 0

/-! ## Named paths of the cache -/

/-- The address file, `"cache/address"`. -/
def addressFilePath : Path := ["cache", "address"]

/-- The bytecode file, `filepath.Join("cache", "Greeter.bin")`. -/
def binFilePath : Path := ["cache", "Greeter.bin"]

/-- The interface file, `filepath.Join("cache", "Greeter.abi")`. -/
def abiFilePath : Path := ["cache", "Greeter.abi"]

/-! ## Helpers for stating the claims -/

/-- Message of the fatal exit, if the fragment ended that way. -/
def Outcome.message {α : Type} : Outcome α → Option String
  | .ok _ _ => none
  | .fatal msg _ => some msg

/-- The first step of `saveContractArtifacts` on its own: the stat of `cache`
and, when it reports that nothing is there, the mkdir.  The result is the file
system and the calls made, or `none` when the directory cannot be created. -/
def cacheDirStep (fs : Node) : Option (Node × List Event) :=
  match lookup ["cache"] fs with
  | .error .ENOENT =>
    match mkdirNode ["cache"] fs with
    | .ok fs0 => some (fs0, [.stat ["cache"], .mkdir ["cache"]])
    | .error _ => none
  | _ => some (fs, [.stat ["cache"]])

/-- Event `e` neither submits a deployment nor writes the address file. -/
def Event.sparesAddress (e : Event) : Prop :=
  e.isDeploy = false ∧ ∀ data, e ≠ .writeFile ["cache", "address"] data

/-- From world `w` to world `w2` the address file is untouched: path resolution
of `cache/address` gives the same result, and the calls made in between neither
deploy nor write that file. -/
def AddressKept (w w2 : World) : Prop :=
  lookup ["cache", "address"] w2.fs = lookup ["cache", "address"] w.fs ∧
    ∃ evs, w2.trace = w.trace ++ evs ∧ ∀ e ∈ evs, e.sparesAddress

/-- The length that client.go reads from a response of at least 64 bytes: the
word `res[32:64]` as an `int64`. -/
def lengthWord (res : GoString) : Int :=
  int64 (setBytes ((res.drop 32).take 32))

/-! ## Sample worlds and environments -/

/-- A working directory without entries. -/
def emptyDir : Node := .dir (fun _ => none) .readWrite

/-- A working directory whose `cache` holds only the address file with text `s`. -/
def cachedFs (s : GoString) : Node :=
  .dir (setEntry (fun _ => none) "cache"
    (.dir (setEntry (fun _ => none) "address" (.file s .readWrite)) .readWrite)) .readWrite

/-- An address text that is well formed but was never deployed. -/
def sampleText : GoString := ascii "0xABCDEF0123456789abcdef0123456789ABCDEF01"

/-- A sample account: twenty bytes 0x11. -/
def sampleAddress : Address := ⟨List.replicate 20 0x11, rfl⟩

/-- Stand-in for `json.Marshal` on a raw message: nil gives `null`, an empty
message is no JSON value, any other message is returned as it is. -/
def sampleMarshal : RawMessage → Except String GoString
  | none => .ok (ascii "null")
  | some [] => .error "unexpected end of JSON input"
  | some (b :: bs) => .ok (b :: bs)

/-- A parsed compiler output with the single contract `Greeter`. -/
def sampleResult : CompilationResult :=
  { Contracts := [(ascii "Greeter", { ABI := some (ascii "[]"), Bin := ascii "6080",
                                       Metadata := [] })] }

/-- A sample environment in which every collaborator answers without error and
the compiler reports one contract, `Greeter`. -/
def sampleEnv : Env :=
  { godotenvLoad := .ok ()
    INFURA_URL := ascii "https://testnet.hashio.io/api"
    PRIVATE_KEY := ascii "0x01"
    dial := fun _ => .ok ()
    hexToECDSA := fun _ => .ok 1
    pubkeyToAddress := fun _ => sampleAddress
    balanceAt := fun _ => .ok 5000000
    pendingNonceAt := fun _ => .ok 7
    suggestGasPrice := .ok 1
    solc := fun _ => .ok []
    jsonUnmarshal := fun _ => .ok sampleResult
    jsonMarshal := sampleMarshal
    abiJSON := fun b => .ok { json := b }
    deployContract := fun _ _ _ _ => .ok (sampleAddress, [])
    transact := fun _ _ _ _ => .ok []
    call := fun _ _ => .ok [.str (ascii "Hello, Ethereum!")]
    callContract := fun _ _ => .ok []
    keccak256 := fun _ => List.replicate 32 0 }

/-- A working directory whose `cache` already holds other artifacts. -/
def staleFs : Node :=
  .dir (setEntry (fun _ => none) "cache"
    (.dir (setEntry (setEntry (fun _ => none) "Greeter.bin" (.file (ascii "dead") .readWrite))
      "Greeter.abi" (.file (ascii "old") .readWrite)) .readWrite)) .readWrite

/-- Another account: twenty bytes 0x22. -/
def fundedAddress : Address := ⟨List.replicate 20 0x22, rfl⟩

/-- The sample environment in which the signer's account holds 5 units only,
while every other account is well funded. -/
def poorEnv : Env :=
  { sampleEnv with
    balanceAt := fun account =>
      if account = sampleAddress then .ok 5 else .ok 1000000000000000000 }

/-- A working directory whose `cache` holds a directory under the name
`Greeter.abi`, so that the ABI write fails after the bytecode write went well. -/
def blockedAbiFs : Node :=
  .dir (setEntry (fun _ => none) "cache"
    (.dir (setEntry (fun _ => none) "Greeter.abi" (.dir (fun _ => none) .readWrite))
      .readWrite)) .readWrite

/-- The world in which `main` with the sample environment calls
`saveContractArtifacts` when it started in `blockedAbiFs` with an empty trace. -/
def blockedAbiWorld : World :=
  { fs := blockedAbiFs
    trace := [.balanceAt sampleAddress, .pendingNonceAt sampleAddress, .suggestGasPrice,
      .solc ["contracts", "Greeter.sol"]] }

/-- A working directory whose `cache` holds, under the name `address`, a
symbolic link that points to itself. -/
def loopFs : Node :=
  .dir (setEntry (fun _ => none) "cache"
    (.dir (setEntry (fun _ => none) "address" .loop) .readWrite)) .readWrite

/-- The sample environment with a compiler that reports one interface: its
`bin` is the empty string. -/
def interfaceEnv : Env :=
  { sampleEnv with
    jsonUnmarshal := fun _ =>
      .ok { Contracts := [(ascii "IGreeter", { ABI := some (ascii "[]"), Bin := [],
                                                Metadata := [] })] } }

/-- A greeting that ends in a NUL byte. -/
def nulGreeting : GoString := ascii "Hi" ++ [0]

/-- The sample environment with a client that answers the greeting call with
an empty response, as for an address that holds no contract. -/
def emptyCallEnv : Env :=
  { sampleEnv with callContract := fun _ _ => .ok [] }

/-! ## Facts about the file system model -/

/-- A successful write of a file name in node `m`: `m` is a directory that can
be searched, and the name is bound to a readable and writable file holding the
data afterwards. -/
theorem writeNode_one (f : String) (data : GoString) (m m2 : Node)
    (h : writeNode [f] data m = .ok m2) :
    ∃ es acc, m = .dir es acc ∧ acc ≠ .none ∧
      m2 = .dir (setEntry es f (.file data .readWrite)) acc := by
  cases m with
  | file dat acc => simp [writeNode] at h
  | dir es acc =>
    by_cases hacc : acc = .none
    · simp [writeNode, hacc] at h
    · refine ⟨es, acc, rfl, hacc, ?_⟩
      cases hf : es f with
      | none =>
        by_cases hrw : acc = .readWrite
        · simp [writeNode, hf, hrw] at h
          rw [← h, hrw]
        · simp [writeNode, hacc, hf, hrw] at h
      | some m3 =>
        cases m3 with
        | file dat3 acc3 =>
          by_cases hrw : acc3 = .readWrite
          · simp [writeNode, hacc, hf, hrw] at h
            rw [← h]
          · simp [writeNode, hacc, hf, hrw] at h
        | dir es3 acc3 => simp [writeNode, hacc, hf] at h
        | loop => simp [writeNode, hacc, hf] at h
  | loop => simp [writeNode] at h

/-- A successful write two levels down, spelled out. -/
theorem writeNode_two (d f : String) (data : GoString) (n n2 : Node)
    (h : writeNode [d, f] data n = .ok n2) :
    ∃ es acc es2 acc2, n = .dir es acc ∧ acc ≠ .none ∧ es d = some (.dir es2 acc2) ∧
      acc2 ≠ .none ∧
      n2 = .dir (setEntry es d (.dir (setEntry es2 f (.file data .readWrite)) acc2)) acc := by
  cases n with
  | file dat acc => simp [writeNode] at h
  | dir es acc =>
    by_cases hacc : acc = .none
    · simp [writeNode, hacc] at h
    · cases hd : es d with
      | none => simp [writeNode, hacc, hd] at h
      | some m =>
        cases hw : writeNode [f] data m with
        | error e =>
          rw [writeNode] at h
          simp [hacc, hd, hw] at h
        | ok m2 =>
          rw [writeNode] at h
          simp [hacc, hd, hw] at h
          obtain ⟨es2, acc2, hm, hacc2, hm2⟩ := writeNode_one f data m m2 hw
          exact ⟨es, acc, es2, acc2, rfl, hacc, by rw [hd, hm], hacc2, by rw [← h, hm2]⟩
  | loop => simp [writeNode] at h

/-- A successful mkdir of a name in node `n`: the name was free in a writable
directory and is bound to an empty directory afterwards. -/
theorem mkdirNode_one (d : String) (n n2 : Node) (h : mkdirNode [d] n = .ok n2) :
    ∃ es acc, n = .dir es acc ∧ acc = .readWrite ∧ es d = none ∧
      n2 = .dir (setEntry es d (.dir (fun _ => Option.none) .readWrite)) acc := by
  cases n with
  | file dat acc => simp [mkdirNode] at h
  | dir es acc =>
    by_cases hacc : acc = .none
    · simp [mkdirNode, hacc] at h
    · cases hd : es d with
      | none =>
        by_cases hrw : acc = .readWrite
        · simp [mkdirNode, hd, hrw] at h
          exact ⟨es, acc, rfl, hrw, hd, by rw [← h, hrw]⟩
        · simp [mkdirNode, hacc, hd, hrw] at h
      | some m => simp [mkdirNode, hacc, hd] at h
  | loop => simp [mkdirNode] at h

/-! ## Claims about the deploy-or-reuse decision -/

/-- The reuse branch of `deployOrLoadContract`, evaluated. -/
theorem deployOrLoadContract_reuse (env : Env) (auth : TransactOpts) (parsedABI : ABI)
    (bin initialGreeting : GoString) (w : World) (s : GoString) (acc : Access)
    (hfile : lookup addressFilePath w.fs = .ok (.file s acc)) (hread : acc ≠ .none) :
    deployOrLoadContract env auth parsedABI bin initialGreeting w =
      .ok (common.HexToAddress s)
        { fs := w.fs
          trace := w.trace ++ [.stat addressFilePath, .readFile addressFilePath] } := by
  have h2 : lookup ["cache", "address"] w.fs = .ok (.file s acc) := hfile
  simp [deployOrLoadContract, os.Stat, loadFromFile, ioutil.ReadFile, World.record, h2,
    readNode, hread, addressFilePath]


/-- C1: when `cache/address` exists and is readable with content `s`,
`deployOrLoadContract` returns `common.HexToAddress s`; the file system is left
as it was and the only calls made are the stat and the read of the address
file, so no deployment is submitted and the chain is not asked anything. -/
theorem deployOrLoadContract_cache_precedence (env : Env) (auth : TransactOpts)
    (parsedABI : ABI) (bin initialGreeting : GoString) (w : World) (s : GoString)
    (acc : Access) (hfile : lookup addressFilePath w.fs = .ok (.file s acc))
    (hread : acc ≠ .none) :
    deployOrLoadContract env auth parsedABI bin initialGreeting w =
        .ok (common.HexToAddress s)
          { fs := w.fs
            trace := w.trace ++ [.stat addressFilePath, .readFile addressFilePath] } ∧
      ∀ e ∈ [Event.stat addressFilePath, Event.readFile addressFilePath],
        e.isChainCall = false ∧ e.isDeploy = false := by
  refine ⟨deployOrLoadContract_reuse env auth parsedABI bin initialGreeting w s acc hfile hread,
    ?_⟩
  intro e he
  simp only [List.mem_cons, List.mem_singleton, List.not_mem_nil, or_false] at he
  rcases he with rfl | rfl <;> exact ⟨rfl, rfl⟩

theorem deployOrLoadContract_cache_precedence_witness :
    lookup addressFilePath (cachedFs sampleText) = .ok (.file sampleText .readWrite) ∧
      Access.readWrite ≠ Access.none ∧
      deployOrLoadContract sampleEnv (createTransactor 1 7 1) { json := [] } [] []
          { fs := cachedFs sampleText, trace := [] } =
        .ok (common.HexToAddress sampleText)
          { fs := cachedFs sampleText
            trace := [] ++ [.stat addressFilePath, .readFile addressFilePath] } :=
  ⟨rfl, by decide,
    (deployOrLoadContract_cache_precedence sampleEnv (createTransactor 1 7 1) { json := [] } [] []
      { fs := cachedFs sampleText, trace := [] } sampleText .readWrite rfl (by decide)).1⟩

/-- C6: with a populated `cache/address` (content `s`), two runs of
`deployOrLoadContract` in succession, whatever their other arguments, both
return `common.HexToAddress s`; the four calls made are two stats and two reads
of the address file, none of them a deployment, and the file system (so the
content of the address file) is the one before the first run. -/
theorem deployOrLoadContract_reuse_idempotent (env1 env2 : Env) (auth1 auth2 : TransactOpts)
    (abi1 abi2 : ABI) (bin1 bin2 greeting1 greeting2 : GoString) (w : World) (s : GoString)
    (acc : Access) (hfile : lookup addressFilePath w.fs = .ok (.file s acc))
    (hread : acc ≠ .none) :
    ∃ w1 w2,
      deployOrLoadContract env1 auth1 abi1 bin1 greeting1 w = .ok (common.HexToAddress s) w1 ∧
      deployOrLoadContract env2 auth2 abi2 bin2 greeting2 w1 = .ok (common.HexToAddress s) w2 ∧
      w1.fs = w.fs ∧ w2.fs = w.fs ∧
      lookup addressFilePath w2.fs = .ok (.file s acc) ∧
      w2.trace = w.trace ++ [.stat addressFilePath, .readFile addressFilePath,
        .stat addressFilePath, .readFile addressFilePath] ∧
      ∀ e ∈ w2.trace, e.isDeploy = true → e ∈ w.trace := by
  refine ⟨_, _, deployOrLoadContract_reuse env1 auth1 abi1 bin1 greeting1 w s acc hfile hread,
    deployOrLoadContract_reuse env2 auth2 abi2 bin2 greeting2 _ s acc hfile hread,
    rfl, rfl, hfile, by simp, ?_⟩
  intro e he hd
  have hnew : ∀ x ∈ [Event.stat addressFilePath, Event.readFile addressFilePath,
      Event.stat addressFilePath, Event.readFile addressFilePath], x.isDeploy = false := by
    decide
  have he2 : e ∈ w.trace ++ [Event.stat addressFilePath, Event.readFile addressFilePath,
      Event.stat addressFilePath, Event.readFile addressFilePath] := by
    simpa using he
  rcases List.mem_append.1 he2 with h | h
  · exact h
  · rw [hnew e h] at hd
    cases hd

theorem deployOrLoadContract_reuse_idempotent_witness :
    lookup addressFilePath (cachedFs sampleText) = .ok (.file sampleText .readWrite) ∧
      Access.readWrite ≠ Access.none ∧
      ∃ w1 w2,
        deployOrLoadContract sampleEnv (createTransactor 1 7 1) { json := [] } [] []
            { fs := cachedFs sampleText, trace := [] } =
          .ok (common.HexToAddress sampleText) w1 ∧
        deployOrLoadContract sampleEnv (createTransactor 1 8 1) { json := [] } [] [] w1 =
          .ok (common.HexToAddress sampleText) w2 ∧
        w2.trace = [] ++ [.stat addressFilePath, .readFile addressFilePath,
          .stat addressFilePath, .readFile addressFilePath] := by
  refine ⟨rfl, by decide, ?_⟩
  obtain ⟨w1, w2, h1, h2, _, _, _, h6, _⟩ :=
    deployOrLoadContract_reuse_idempotent sampleEnv sampleEnv (createTransactor 1 7 1)
      (createTransactor 1 8 1) { json := [] } { json := [] } [] [] [] []
      { fs := cachedFs sampleText, trace := [] } sampleText .readWrite rfl (by decide)
  exact ⟨w1, w2, h1, h2, h6⟩

/-- The steps behind a `saveContractArtifacts` that returns. -/
theorem save_ok_inv (bin abiBytes : GoString) (w w1 : World)
    (hsave : saveContractArtifacts bin abiBytes w = .ok () w1) :
    ∃ fs0 fs1 evs,
      ((lookup ["cache"] w.fs = .error .ENOENT ∧ mkdirNode ["cache"] w.fs = .ok fs0 ∧
          evs = [Event.stat ["cache"], Event.mkdir ["cache"]]) ∨
        (lookup ["cache"] w.fs ≠ .error .ENOENT ∧ fs0 = w.fs ∧ evs = [Event.stat ["cache"]])) ∧
      writeNode binFilePath bin fs0 = .ok fs1 ∧
      writeNode abiFilePath abiBytes fs1 = .ok w1.fs ∧
      w1.trace = w.trace ++ evs ++
        [Event.writeFile binFilePath bin, Event.writeFile abiFilePath abiBytes] := by
  by_cases hl : lookup ["cache"] w.fs = .error .ENOENT
  · cases hm : mkdirNode ["cache"] w.fs with
    | error e =>
      simp [saveContractArtifacts, os.Stat, os.IsNotExist, os.Mkdir, World.record, hl, hm] at hsave
    | ok fs0 =>
      cases hb : writeNode ["cache", "Greeter.bin"] bin fs0 with
      | error e =>
        simp [saveContractArtifacts, os.Stat, os.IsNotExist, os.Mkdir, World.record, hl, hm,
          saveToFile, ioutil.WriteFile, filepath.Join, hb] at hsave
      | ok fs1 =>
        cases ha : writeNode ["cache", "Greeter.abi"] abiBytes fs1 with
        | error e =>
          simp [saveContractArtifacts, os.Stat, os.IsNotExist, os.Mkdir, World.record, hl, hm,
            saveToFile, ioutil.WriteFile, filepath.Join, hb, ha] at hsave
        | ok fs2 =>
          simp [saveContractArtifacts, os.Stat, os.IsNotExist, os.Mkdir, World.record, hl, hm,
            saveToFile, ioutil.WriteFile, filepath.Join, hb, ha] at hsave
          subst hsave
          exact ⟨fs0, fs1, _, Or.inl ⟨hl, rfl, rfl⟩, hb, ha, by simp [binFilePath, abiFilePath]⟩
  · have hst : (os.Stat ["cache"] w).2 = w.record (.stat ["cache"]) := by
      unfold os.Stat
      split <;> rfl
    have hno : os.IsNotExist (os.Stat ["cache"] w).1 = false := by
      unfold os.Stat os.IsNotExist
      cases hl2 : lookup ["cache"] w.fs with
      | ok n => simp
      | error e =>
        have : e ≠ .ENOENT := fun h => hl (by rw [hl2, h])
        simp [this]
    cases hb : writeNode ["cache", "Greeter.bin"] bin w.fs with
    | error e =>
      simp [saveContractArtifacts, hst, hno, World.record,
        saveToFile, ioutil.WriteFile, filepath.Join, hb] at hsave
    | ok fs1 =>
      cases ha : writeNode ["cache", "Greeter.abi"] abiBytes fs1 with
      | error e =>
        simp [saveContractArtifacts, hst, hno, World.record,
          saveToFile, ioutil.WriteFile, filepath.Join, hb, ha] at hsave
      | ok fs2 =>
        simp [saveContractArtifacts, hst, hno, World.record,
          saveToFile, ioutil.WriteFile, filepath.Join, hb, ha] at hsave
        subst hsave
        exact ⟨w.fs, fs1, _, Or.inr ⟨hl, rfl, rfl⟩, hb, ha, by simp [binFilePath, abiFilePath]⟩

/-- What was written is found under its path. -/
theorem lookup_written (d f : String) (data : GoString) (n n2 : Node)
    (h : writeNode [d, f] data n = .ok n2) :
    lookup [d, f] n2 = .ok (.file data .readWrite) := by
  obtain ⟨es, acc, es2, acc2, _, hacc, _, hacc2, hn2⟩ := writeNode_two d f data n n2 h
  subst hn2
  simp [lookup, hacc, hacc2, setEntry]

/-- A write leaves the other names of the same directory as they were. -/
theorem lookup_sibling_of_write (d f g : String) (data : GoString) (n n2 : Node)
    (hne : g ≠ f) (h : writeNode [d, f] data n = .ok n2) :
    lookup [d, g] n2 = lookup [d, g] n := by
  obtain ⟨es, acc, es2, acc2, hn, hacc, hd, hacc2, hn2⟩ := writeNode_two d f data n n2 h
  subst hn hn2
  simp [lookup, hacc, hacc2, setEntry, hne, hd]

/-- `loadFromFile` returns the content of a readable file. -/
theorem loadFromFile_of_lookup (p : Path) (w : World) (data : GoString) (acc : Access)
    (h : lookup p w.fs = .ok (.file data acc)) (hacc : acc ≠ .none) :
    (loadFromFile p w).1 = .ok data := by
  simp [loadFromFile, ioutil.ReadFile, h, readNode, hacc]

/-- C5: after a successful `saveContractArtifacts bin abiBytes`, whatever the
file system held before, `loadFromFile` of `cache/Greeter.bin` returns exactly
`bin` and `loadFromFile` of `cache/Greeter.abi` returns exactly `abiBytes`. -/
theorem saveContractArtifacts_roundtrip (bin abiBytes : GoString) (w w1 : World)
    (hsave : saveContractArtifacts bin abiBytes w = .ok () w1) :
    (loadFromFile binFilePath w1).1 = .ok bin ∧
      (loadFromFile abiFilePath w1).1 = .ok abiBytes := by
  obtain ⟨fs0, fs1, evs, _, hb, ha, _⟩ := save_ok_inv bin abiBytes w w1 hsave
  have h1 : lookup binFilePath fs1 = .ok (.file bin .readWrite) :=
    lookup_written "cache" "Greeter.bin" bin fs0 fs1 hb
  have h2 : lookup binFilePath w1.fs = lookup binFilePath fs1 :=
    lookup_sibling_of_write "cache" "Greeter.abi" "Greeter.bin" abiBytes fs1 w1.fs
      (by decide) ha
  have h3 : lookup abiFilePath w1.fs = .ok (.file abiBytes .readWrite) :=
    lookup_written "cache" "Greeter.abi" abiBytes fs1 w1.fs ha
  exact ⟨loadFromFile_of_lookup binFilePath w1 bin .readWrite (h2.trans h1) (by decide),
    loadFromFile_of_lookup abiFilePath w1 abiBytes .readWrite h3 (by decide)⟩


theorem saveContractArtifacts_roundtrip_witness :
    saveContractArtifacts (ascii "6080") (ascii "[]") { fs := staleFs, trace := [] } =
        .ok () (saveContractArtifacts (ascii "6080") (ascii "[]")
          { fs := staleFs, trace := [] }).world ∧
      (loadFromFile binFilePath (saveContractArtifacts (ascii "6080") (ascii "[]")
          { fs := staleFs, trace := [] }).world).1 = .ok (ascii "6080") ∧
      (loadFromFile abiFilePath (saveContractArtifacts (ascii "6080") (ascii "[]")
          { fs := staleFs, trace := [] }).world).1 = .ok (ascii "[]") :=
  ⟨rfl, saveContractArtifacts_roundtrip (ascii "6080") (ascii "[]")
    { fs := staleFs, trace := [] } _ rfl⟩

theorem hextable_getD_mem : ∀ k, k < 16 → common.hextable.getD k 0 ∈ common.hextable := by
  decide

set_option maxRecDepth 100000 in
theorem hextable_upper : ∀ c ∈ common.hextable,
    common.isHexCharacter c = true ∧ (c.val > 0x39 → common.isHexCharacter (c - 32) = true) := by
  decide

theorem checksumByte_hex (hash : GoString) (i : Nat) (c : Byte) (hc : c ∈ common.hextable) :
    common.isHexCharacter (common.checksumByte hash i c) = true := by
  obtain ⟨h1, h2⟩ := hextable_upper c hc
  unfold common.checksumByte
  dsimp only
  split_ifs with ha hb hb
  · exact h2 hb.1
  · exact h1
  · exact h2 hb.1
  · exact h1

theorem hexEncode_mem (bs : GoString) : ∀ c ∈ common.hexEncode bs, c ∈ common.hextable := by
  induction bs with
  | nil => simp [common.hexEncode]
  | cons b bs ih =>
    intro c hc
    simp only [common.hexEncode, List.mem_cons] at hc
    rcases hc with rfl | rfl | hc
    · exact hextable_getD_mem _ (by omega)
    · exact hextable_getD_mem _ (by omega)
    · exact ih c hc

theorem hexEncode_length (bs : GoString) : (common.hexEncode bs).length = 2 * bs.length := by
  induction bs with
  | nil => rfl
  | cons b bs ih => simp [common.hexEncode, ih]; omega

theorem checksumFrom_length (hash : GoString) (i : Nat) (cs : GoString) :
    (common.checksumFrom hash i cs).length = cs.length := by
  induction cs generalizing i with
  | nil => rfl
  | cons c cs ih => simp [common.checksumFrom, ih]

theorem checksumFrom_all (hash : GoString) (i : Nat) (cs : GoString)
    (h : ∀ c ∈ cs, c ∈ common.hextable) :
    (common.checksumFrom hash i cs).all common.isHexCharacter = true := by
  induction cs generalizing i with
  | nil => rfl
  | cons c cs ih =>
    simp only [common.checksumFrom, List.all_cons, Bool.and_eq_true]
    exact ⟨checksumByte_hex hash i c (h c (List.mem_cons_self _ _)),
      ih (i + 1) (fun x hx => h x (List.mem_cons_of_mem _ hx))⟩

theorem Hex_eq (keccak256 : GoString → GoString) (a : Address) :
    common.Hex keccak256 a =
      (0x30 : Byte) :: (0x78 : Byte) ::
        common.checksumFrom (keccak256 (common.hexEncode a.bytes)) 2 (common.hexEncode a.bytes) := by
  have h0x : ascii "0x" = [(0x30 : Byte), (0x78 : Byte)] := by decide
  simp [common.Hex, common.hex, h0x]

/-- The text `a.Hex()` passes `common.IsHexAddress`, whatever the digest. -/
theorem IsHexAddress_Hex (keccak256 : GoString → GoString) (a : Address) :
    common.IsHexAddress (common.Hex keccak256 a) = true := by
  rw [Hex_eq]
  have hlen : (common.checksumFrom (keccak256 (common.hexEncode a.bytes)) 2
      (common.hexEncode a.bytes)).length = 40 := by
    rw [checksumFrom_length, hexEncode_length, a.size]
  have hall := checksumFrom_all (keccak256 (common.hexEncode a.bytes)) 2
    (common.hexEncode a.bytes) (hexEncode_mem a.bytes)
  have hpre : ∀ rest : GoString,
      common.has0xPrefix ((0x30 : Byte) :: (0x78 : Byte) :: rest) = true := fun _ => rfl
  unfold common.IsHexAddress
  simp only [hpre, if_true, List.drop_succ_cons, List.drop_zero]
  simp [common.isHex, hlen, hall]

theorem setEntry_setEntry (es : String → Option Node) (k : String) (a b : Node) :
    setEntry (setEntry es k a) k b = setEntry es k b := by
  funext x
  simp only [setEntry]
  split <;> rfl

/-- C2: starting without a cache directory, `saveContractArtifacts bin abiBytes`
followed by a `deployOrLoadContract` whose deployment succeeds with address
`a` returns `a` and leaves a cache directory that holds exactly the three files
`Greeter.bin`, `Greeter.abi` and `address`, with the saved bytecode, the saved
interface and the text `a.Hex()`, which `common.IsHexAddress` accepts. -/
theorem cold_start_three_files (env : Env) (auth : TransactOpts) (parsedABI : ABI)
    (bin abiBytes bin2 initialGreeting : GoString) (w w1 : World) (a : Address) (tx : Hash)
    (hno : ∀ es acc, lookup ["cache"] w.fs ≠ .ok (.dir es acc))
    (hsave : saveContractArtifacts bin abiBytes w = .ok () w1)
    (hdeploy : env.deployContract auth parsedABI (common.FromHex bin2) initialGreeting =
      .ok (a, tx)) :
    ∃ w2 es2,
      deployOrLoadContract env auth parsedABI bin2 initialGreeting w1 = .ok a w2 ∧
      lookup ["cache"] w2.fs = .ok (.dir es2 .readWrite) ∧
      (∀ name, (es2 name).isSome = true ↔
        name = "Greeter.bin" ∨ name = "Greeter.abi" ∨ name = "address") ∧
      es2 "Greeter.bin" = some (.file bin .readWrite) ∧
      es2 "Greeter.abi" = some (.file abiBytes .readWrite) ∧
      es2 "address" = some (.file (common.Hex env.keccak256 a) .readWrite) ∧
      (loadFromFile addressFilePath w2).1 = .ok (common.Hex env.keccak256 a) ∧
      common.IsHexAddress (common.Hex env.keccak256 a) = true := by
  obtain ⟨fs0, fs1, evs, hcase, hb, ha, htr⟩ := save_ok_inv bin abiBytes w w1 hsave
  rcases hcase with ⟨hl, hm, _⟩ | ⟨hl, rfl, _⟩
  · obtain ⟨es, acc, hfs, hrw, hnone, hfs0⟩ := mkdirNode_one "cache" w.fs fs0 hm
    subst hfs0 hrw
    simp [writeNode, setEntry, binFilePath] at hb
    subst hb
    simp [writeNode, setEntry, abiFilePath] at ha
    cases w1 with
    | mk fs1 tr1 =>
      simp only at ha
      subst ha
      have hrun : ∃ w2, deployOrLoadContract env auth parsedABI bin2 initialGreeting
            { fs := Node.dir (setEntry es "cache" (Node.dir
                (setEntry (setEntry (fun _ => none) "Greeter.bin" (.file bin .readWrite))
                  "Greeter.abi" (.file abiBytes .readWrite)) .readWrite)) .readWrite
              trace := tr1 } = .ok a w2 ∧
          w2.fs = Node.dir (setEntry es "cache" (Node.dir
            (setEntry (setEntry (setEntry (fun _ => none) "Greeter.bin" (.file bin .readWrite))
              "Greeter.abi" (.file abiBytes .readWrite))
              "address" (.file (common.Hex env.keccak256 a) .readWrite)) .readWrite))
            .readWrite := by
        simp [deployOrLoadContract, os.Stat, lookup, setEntry, bind.DeployContract, hdeploy,
          saveToFile, ioutil.WriteFile, writeNode, World.record, setEntry_setEntry]
      simp only [setEntry_setEntry]
      obtain ⟨w2, hw2, hfs2⟩ := hrun
      refine ⟨w2, setEntry (setEntry (setEntry (fun _ => none) "Greeter.bin"
          (.file bin .readWrite)) "Greeter.abi" (.file abiBytes .readWrite))
          "address" (.file (common.Hex env.keccak256 a) .readWrite),
        hw2, ?_, ?_, ?_, ?_, ?_, ?_, IsHexAddress_Hex env.keccak256 a⟩
      · rw [hfs2]
        simp [lookup, setEntry]
      · intro name
        simp only [setEntry]
        by_cases h1 : name = "address"
        · simp [h1]
        · by_cases h2 : name = "Greeter.abi"
          · simp [h2]
          · by_cases h3 : name = "Greeter.bin"
            · simp [h3]
            · simp [h1, h2, h3]
      · simp [setEntry]
      · simp [setEntry]
      · simp [setEntry]
      · exact loadFromFile_of_lookup addressFilePath w2 _ .readWrite
          (by rw [hfs2]; simp [addressFilePath, lookup, setEntry]) (by decide)
  · obtain ⟨es, acc, es2, acc2, hn, hacc, hd, hacc2, _⟩ :=
      writeNode_two "cache" "Greeter.bin" bin w.fs fs1 hb
    exact absurd (by simp [hn, lookup, hacc, hd]) (hno es2 acc2)

theorem cold_start_three_files_witness :
    (∀ es acc, lookup ["cache"] emptyDir ≠ .ok (.dir es acc)) ∧
      saveContractArtifacts (ascii "6080") (ascii "[]") { fs := emptyDir, trace := [] } =
        .ok () (saveContractArtifacts (ascii "6080") (ascii "[]")
          { fs := emptyDir, trace := [] }).world ∧
      sampleEnv.deployContract (createTransactor 1 7 1) { json := ascii "[]" }
          (common.FromHex (ascii "6080")) (ascii "Hello, World!") = .ok (sampleAddress, []) ∧
      ∃ w2 es2,
        deployOrLoadContract sampleEnv (createTransactor 1 7 1) { json := ascii "[]" }
            (ascii "6080") (ascii "Hello, World!")
            (saveContractArtifacts (ascii "6080") (ascii "[]")
              { fs := emptyDir, trace := [] }).world = .ok sampleAddress w2 ∧
        lookup ["cache"] w2.fs = .ok (.dir es2 .readWrite) ∧
        (∀ name, (es2 name).isSome = true ↔
          name = "Greeter.bin" ∨ name = "Greeter.abi" ∨ name = "address") ∧
        es2 "Greeter.bin" = some (.file (ascii "6080") .readWrite) ∧
        es2 "Greeter.abi" = some (.file (ascii "[]") .readWrite) ∧
        es2 "address" = some (.file (common.Hex sampleEnv.keccak256 sampleAddress) .readWrite) ∧
        (loadFromFile addressFilePath w2).1 = .ok (common.Hex sampleEnv.keccak256 sampleAddress) ∧
        common.IsHexAddress (common.Hex sampleEnv.keccak256 sampleAddress) = true :=
  have hno : ∀ es acc, lookup ["cache"] emptyDir ≠ .ok (.dir es acc) := by
    intro es acc h
    simp [lookup, emptyDir] at h
  ⟨hno, rfl, rfl,
    cold_start_three_files sampleEnv (createTransactor 1 7 1) { json := ascii "[]" }
      (ascii "6080") (ascii "[]") (ascii "6080") (ascii "Hello, World!")
      { fs := emptyDir, trace := [] } _ sampleAddress [] hno rfl rfl⟩


/-- `saveContractArtifacts` evaluated step by step: the directory step, the
bytecode write, the ABI write, each with the world in which a failure ends the
run. -/
theorem save_eval (bin abiBytes : GoString) (w : World) :
    saveContractArtifacts bin abiBytes w =
      match cacheDirStep w.fs with
      | none =>
        .fatal "Failed to create cache directory"
          { fs := w.fs, trace := w.trace ++ [.stat ["cache"], .mkdir ["cache"]] }
      | some (fs0, evs) =>
        match writeNode binFilePath bin fs0 with
        | .error _ =>
          .fatal "Failed to save bytecode"
            { fs := fs0, trace := w.trace ++ evs ++ [.writeFile binFilePath bin] }
        | .ok fs1 =>
          match writeNode abiFilePath abiBytes fs1 with
          | .error _ =>
            .fatal "Failed to save ABI"
              { fs := fs1
                trace := w.trace ++ evs ++
                  [.writeFile binFilePath bin, .writeFile abiFilePath abiBytes] }
          | .ok fs2 =>
            .ok ()
              { fs := fs2
                trace := w.trace ++ evs ++
                  [.writeFile binFilePath bin, .writeFile abiFilePath abiBytes] } := by
  have tail : ∀ (fs0 : Node) (tr : List Event),
      (match saveToFile (filepath.Join ["cache"] "Greeter.bin") bin { fs := fs0, trace := tr } with
        | (some _, w2) => Outcome.fatal "Failed to save bytecode" w2
        | (none, w2) =>
          match saveToFile (filepath.Join ["cache"] "Greeter.abi") abiBytes w2 with
          | (some _, w3) => Outcome.fatal "Failed to save ABI" w3
          | (none, w3) => Outcome.ok () w3) =
      (match writeNode binFilePath bin fs0 with
        | .error _ =>
          Outcome.fatal "Failed to save bytecode"
            { fs := fs0, trace := tr ++ [.writeFile binFilePath bin] }
        | .ok fs1 =>
          match writeNode abiFilePath abiBytes fs1 with
          | .error _ =>
            Outcome.fatal "Failed to save ABI"
              { fs := fs1
                trace := tr ++ [.writeFile binFilePath bin, .writeFile abiFilePath abiBytes] }
          | .ok fs2 =>
            Outcome.ok ()
              { fs := fs2
                trace := tr ++
                  [.writeFile binFilePath bin, .writeFile abiFilePath abiBytes] }) := by
    intro fs0 tr
    have hp1 : filepath.Join ["cache"] "Greeter.bin" = binFilePath := rfl
    have hp2 : filepath.Join ["cache"] "Greeter.abi" = abiFilePath := rfl
    rw [hp1, hp2]
    cases hb : writeNode binFilePath bin fs0 with
    | error e => simp [saveToFile, ioutil.WriteFile, hb, World.record]
    | ok fs1 =>
      cases ha : writeNode abiFilePath abiBytes fs1 with
      | error e => simp [saveToFile, ioutil.WriteFile, hb, ha, World.record]
      | ok fs2 => simp [saveToFile, ioutil.WriteFile, hb, ha, World.record]
  unfold saveContractArtifacts cacheDirStep
  cases hl : lookup ["cache"] w.fs with
  | ok n =>
    simp only [os.Stat, hl, os.IsNotExist, World.record]
    simp only [decide_False, Bool.false_eq_true, if_false, reduceCtorEq]
    rw [tail]
  | error e =>
    cases e with
    | ENOENT =>
      cases hm : mkdirNode ["cache"] w.fs with
      | error e2 =>
        simp [os.Stat, hl, os.IsNotExist, World.record, os.Mkdir, hm]
      | ok fs0 =>
        simp only [os.Stat, hl, os.IsNotExist, World.record, os.Mkdir, hm]
        simp only [decide_True, if_true]
        rw [tail]
        simp
    | _ =>
      simp only [os.Stat, hl, os.IsNotExist, World.record]
      simp only [decide_False, Bool.false_eq_true, if_false, reduceCtorEq, Option.some.injEq]
      rw [tail]

/-- The directory step does not change what `cache/address` resolves to. -/
theorem cacheDirStep_some (fs fs0 : Node) (evs : List Event)
    (h : cacheDirStep fs = some (fs0, evs)) :
    lookup addressFilePath fs0 = lookup addressFilePath fs ∧
      (evs = [.stat ["cache"]] ∨ evs = [.stat ["cache"], .mkdir ["cache"]]) := by
  unfold cacheDirStep at h
  cases hl : lookup ["cache"] fs with
  | ok n =>
    simp [hl] at h
    exact ⟨by rw [h.1], Or.inl h.2.symm⟩
  | error e =>
    cases e with
    | ENOENT =>
      cases hm : mkdirNode ["cache"] fs with
      | error e2 => simp [hl, hm] at h
      | ok fs1 =>
        simp [hl, hm] at h
        obtain ⟨es, acc, hfs, hrw, hnone, hfs1⟩ := mkdirNode_one "cache" fs fs1 hm
        refine ⟨?_, Or.inr h.2.symm⟩
        rw [← h.1, hfs1, hfs, hrw]
        simp [addressFilePath, lookup, setEntry, hnone]
    | _ =>
      simp [hl] at h
      exact ⟨by rw [h.1], Or.inl h.2.symm⟩

/-- Whatever its outcome, `saveContractArtifacts` leaves `cache/address` alone
and calls neither the chain nor a write of that file. -/
theorem save_frame (bin abiBytes : GoString) (w : World) :
    lookup addressFilePath (saveContractArtifacts bin abiBytes w).world.fs =
        lookup addressFilePath w.fs ∧
      ∃ evs, (saveContractArtifacts bin abiBytes w).world.trace = w.trace ++ evs ∧
        ∀ e ∈ evs, e.isChainCall = false ∧ ∀ data, e ≠ .writeFile addressFilePath data := by
  rw [save_eval]
  have hev : ∀ evs : List Event,
      (evs = [.stat ["cache"]] ∨ evs = [.stat ["cache"], .mkdir ["cache"]]) →
      ∀ e ∈ evs ++ [Event.writeFile binFilePath bin, Event.writeFile abiFilePath abiBytes],
        e.isChainCall = false ∧ ∀ data, e ≠ .writeFile addressFilePath data := by
    intro evs hevs e he
    rcases hevs with rfl | rfl <;>
      simp only [List.cons_append, List.nil_append, List.mem_cons, List.mem_singleton,
        List.not_mem_nil, or_false] at he
    · rcases he with rfl | rfl | rfl <;>
        simp [Event.isChainCall, binFilePath, abiFilePath, addressFilePath]
    · rcases he with rfl | rfl | rfl | rfl <;>
        simp [Event.isChainCall, binFilePath, abiFilePath, addressFilePath]
  cases hc : cacheDirStep w.fs with
  | none =>
    refine ⟨rfl, _, rfl, ?_⟩
    intro e he
    simp only [List.mem_cons, List.mem_singleton, List.not_mem_nil, or_false] at he
    rcases he with rfl | rfl <;> simp [Event.isChainCall]
  | some p =>
    obtain ⟨fs0, evs⟩ := p
    obtain ⟨hfs0, hevs⟩ := cacheDirStep_some w.fs fs0 evs hc
    dsimp only
    cases hb : writeNode binFilePath bin fs0 with
    | error e =>
      refine ⟨hfs0, evs ++ [.writeFile binFilePath bin], by simp [Outcome.world], ?_⟩
      intro x hx
      exact hev evs hevs x (by
        simp only [List.mem_append, List.mem_cons, List.mem_singleton, List.not_mem_nil,
          or_false] at hx ⊢
        tauto)
    | ok fs1 =>
      dsimp only
      have h1 : lookup addressFilePath fs1 = lookup addressFilePath fs0 :=
        lookup_sibling_of_write "cache" "Greeter.bin" "address" bin fs0 fs1 (by decide) hb
      cases ha : writeNode abiFilePath abiBytes fs1 with
      | error e =>
        exact ⟨h1.trans hfs0, _, by simp [Outcome.world], hev evs hevs⟩
      | ok fs2 =>
        have h2 : lookup addressFilePath fs2 = lookup addressFilePath fs1 :=
          lookup_sibling_of_write "cache" "Greeter.abi" "address" abiBytes fs1 fs2
            (by decide) ha
        exact ⟨h2.trans (h1.trans hfs0), _, by simp [Outcome.world], hev evs hevs⟩

theorem AddressKept.refl (w : World) : AddressKept w w :=
  ⟨rfl, [], by simp, by simp⟩

theorem AddressKept.trans {w w2 w3 : World} (h1 : AddressKept w w2) (h2 : AddressKept w2 w3) :
    AddressKept w w3 := by
  obtain ⟨hf1, evs1, ht1, hs1⟩ := h1
  obtain ⟨hf2, evs2, ht2, hs2⟩ := h2
  refine ⟨hf2.trans hf1, evs1 ++ evs2, by rw [ht2, ht1, List.append_assoc], ?_⟩
  intro e he
  rcases List.mem_append.1 he with h | h
  · exact hs1 e h
  · exact hs2 e h

theorem AddressKept.record (w : World) (e : Event) (he : e.sparesAddress) :
    AddressKept w (w.record e) := by
  refine ⟨rfl, [e], rfl, ?_⟩
  intro x hx
  rw [List.mem_singleton.1 hx]
  exact he

theorem isDeploy_of_not_chain (e : Event) (h : e.isChainCall = false) : e.isDeploy = false := by
  cases e <;> simp_all [Event.isChainCall, Event.isDeploy]

theorem AddressKept.save (bin abiBytes : GoString) (w : World) :
    AddressKept w (saveContractArtifacts bin abiBytes w).world := by
  obtain ⟨hf, evs, ht, hs⟩ := save_frame bin abiBytes w
  exact ⟨hf, evs, ht, fun e he => ⟨isDeploy_of_not_chain e (hs e he).1, (hs e he).2⟩⟩

theorem compileContract_world (env : Env) (p : Path) (w : World) :
    (compileContract env p w).2 = w.record (.solc p) := by
  unfold compileContract
  dsimp only
  cases env.solc p with
  | error e => rfl
  | ok out =>
    dsimp only
    cases env.jsonUnmarshal out with
    | error e => rfl
    | ok result =>
      dsimp only
      cases result.Contracts with
      | nil => rfl
      | cons c cs =>
        dsimp only
        cases env.jsonMarshal c.2.ABI with
        | error e => rfl
        | ok abiBytes => rfl

theorem int64_gasLimit : int64 3000000 = 3000000 := by decide

/-- With too small a balance of the signer, `main` ends fatally and keeps the
address file. -/
theorem main_poor_kept (env : Env) (w : World)
    (hpoor : ∀ key balance gasPrice,
      env.hexToECDSA (trimPrefix0x env.PRIVATE_KEY) = .ok key →
      env.balanceAt (env.pubkeyToAddress key) = .ok balance →
      env.suggestGasPrice = .ok gasPrice → balance < 3000000 * gasPrice) :
    (main env w).isFatal = true ∧ AddressKept w (main env w).world := by
  unfold main
  cases h1 : env.godotenvLoad with
  | error e => exact ⟨rfl, AddressKept.refl w⟩
  | ok u =>
    dsimp only
    cases h2 : env.dial env.INFURA_URL with
    | error e => exact ⟨rfl, AddressKept.refl w⟩
    | ok u2 =>
      dsimp only
      cases h3 : env.hexToECDSA (trimPrefix0x env.PRIVATE_KEY) with
      | error e => exact ⟨rfl, AddressKept.refl w⟩
      | ok key =>
        dsimp only [ethclient.BalanceAt]
        have k1 : AddressKept w (w.record (.balanceAt (env.pubkeyToAddress key))) :=
          AddressKept.record w _ ⟨rfl, fun _ h => by cases h⟩
        cases h4 : env.balanceAt (env.pubkeyToAddress key) with
        | error e => exact ⟨rfl, k1⟩
        | ok balance =>
          dsimp only [ethclient.PendingNonceAt]
          have k2 := k1.trans (AddressKept.record (w.record (.balanceAt (env.pubkeyToAddress key)))
            (.pendingNonceAt (env.pubkeyToAddress key)) ⟨rfl, fun _ h => by cases h⟩)
          cases h5 : env.pendingNonceAt (env.pubkeyToAddress key) with
          | error e => exact ⟨rfl, k2⟩
          | ok nonce =>
            dsimp only [ethclient.SuggestGasPrice]
            have k3 := k2.trans (AddressKept.record _ .suggestGasPrice ⟨rfl, fun _ h => by cases h⟩)
            cases h6 : env.suggestGasPrice with
            | error e => exact ⟨rfl, k3⟩
            | ok gasPrice =>
              dsimp only
              have k4 := k3.trans (AddressKept.record _ (.solc ["contracts", "Greeter.sol"])
                ⟨rfl, fun _ h => by cases h⟩)
              rw [← compileContract_world env] at k4
              generalize compileContract env ["contracts", "Greeter.sol"]
                (((w.record (.balanceAt (env.pubkeyToAddress key))).record
                  (.pendingNonceAt (env.pubkeyToAddress key))).record .suggestGasPrice) = cc
                at k4 ⊢
              obtain ⟨res, w4⟩ := cc
              cases res with
              | error e => exact ⟨rfl, k4⟩
              | ok pr =>
                obtain ⟨bin, abiBytes⟩ := pr
                dsimp only
                have k5 := k4.trans (AddressKept.save bin abiBytes w4)
                cases hs : saveContractArtifacts bin abiBytes w4 with
                | fatal msg w5 =>
                  rw [hs] at k5
                  exact ⟨rfl, k5⟩
                | ok u3 w5 =>
                  rw [hs] at k5
                  dsimp only
                  cases h7 : env.abiJSON abiBytes with
                  | error e => exact ⟨rfl, k5⟩
                  | ok parsedABI =>
                    dsimp only
                    have hlt : balance < calculateTransactionCost
                        (createTransactor key nonce gasPrice).GasLimit gasPrice := by
                      have := hpoor key balance gasPrice h3 h4 h6
                      simpa [calculateTransactionCost, createTransactor, int64_gasLimit] using this
                    rw [if_pos hlt]
                    exact ⟨rfl, k5⟩

/-- C3: whenever the balance the client reports for the signer's account (the
only balance `main` reads) is below `3000000 * gasPrice` for the gas price it
reports (3000000 being the gas limit `createTransactor` fixes), a run of `main`
ends in `log.Fatalf`, submits no deployment, writes no address file, and path
resolution of `cache/address` gives after the run what it gave before.  Nothing
is asked of the balance of any other account. -/
theorem main_insufficient_funds (env : Env) (w : World)
    (hpoor : ∀ key balance gasPrice,
      env.hexToECDSA (trimPrefix0x env.PRIVATE_KEY) = .ok key →
      env.balanceAt (env.pubkeyToAddress key) = .ok balance →
      env.suggestGasPrice = .ok gasPrice → balance < 3000000 * gasPrice) :
    (∀ key nonce gasPrice, (createTransactor key nonce gasPrice).GasLimit = 3000000) ∧
      (main env w).isFatal = true ∧
      lookup addressFilePath (main env w).world.fs = lookup addressFilePath w.fs ∧
      ∃ evs, (main env w).world.trace = w.trace ++ evs ∧
        ∀ e ∈ evs, e.isDeploy = false ∧ ∀ data, e ≠ .writeFile addressFilePath data := by
  obtain ⟨hfatal, hkept⟩ := main_poor_kept env w hpoor
  exact ⟨fun _ _ _ => rfl, hfatal, hkept⟩

theorem main_insufficient_funds_witness :
    (∀ key balance gasPrice,
        poorEnv.hexToECDSA (trimPrefix0x poorEnv.PRIVATE_KEY) = .ok key →
        poorEnv.balanceAt (poorEnv.pubkeyToAddress key) = .ok balance →
        poorEnv.suggestGasPrice = .ok gasPrice → balance < 3000000 * gasPrice) ∧
      poorEnv.balanceAt fundedAddress = .ok 1000000000000000000 ∧
      (main poorEnv { fs := emptyDir, trace := [] }).message = some "Insufficient funds" ∧
      (main poorEnv { fs := emptyDir, trace := [] }).isFatal = true ∧
      lookup addressFilePath (main poorEnv { fs := emptyDir, trace := [] }).world.fs =
        lookup addressFilePath emptyDir ∧
      ∃ evs, (main poorEnv { fs := emptyDir, trace := [] }).world.trace = [] ++ evs ∧
        ∀ e ∈ evs, e.isDeploy = false ∧ ∀ data, e ≠ .writeFile addressFilePath data :=
  have hpoor : ∀ key balance gasPrice,
      poorEnv.hexToECDSA (trimPrefix0x poorEnv.PRIVATE_KEY) = .ok key →
      poorEnv.balanceAt (poorEnv.pubkeyToAddress key) = .ok balance →
      poorEnv.suggestGasPrice = .ok gasPrice → balance < 3000000 * gasPrice := by
    intro key balance gasPrice _ hb hg
    simp only [poorEnv, sampleEnv, if_true, Except.ok.injEq] at hb hg
    omega
  ⟨hpoor, rfl, by decide, (main_insufficient_funds poorEnv { fs := emptyDir, trace := [] } hpoor).2⟩


/-- C7: `saveContractArtifacts` ends in `log.Fatalf` exactly when the cache
directory cannot be created or one of the two writes fails, and it stops at
the first failure without undoing anything: after a failed mkdir nothing is
written; after a failed bytecode write the run ends with that write as its last
call (the ABI write is not attempted); after a failed ABI write that follows a
successful bytecode write, `cache/Greeter.bin` reads back as the new bytecode.
In `main`, a fatal end of `saveContractArtifacts` is the end of the run, in the
same world, so neither the deployment nor the address write takes place. -/
theorem saveContractArtifacts_first_failure (bin abiBytes : GoString) (w : World) :
    ((saveContractArtifacts bin abiBytes w).isFatal = true ↔
      cacheDirStep w.fs = none ∨
      ∃ fs0 evs, cacheDirStep w.fs = some (fs0, evs) ∧
        ((∃ e, writeNode binFilePath bin fs0 = .error e) ∨
          ∃ fs1 e, writeNode binFilePath bin fs0 = .ok fs1 ∧
            writeNode abiFilePath abiBytes fs1 = .error e)) ∧
    (cacheDirStep w.fs = none →
      saveContractArtifacts bin abiBytes w =
        .fatal "Failed to create cache directory"
          { fs := w.fs, trace := w.trace ++ [.stat ["cache"], .mkdir ["cache"]] }) ∧
    (∀ fs0 evs e, cacheDirStep w.fs = some (fs0, evs) →
      writeNode binFilePath bin fs0 = .error e →
      saveContractArtifacts bin abiBytes w =
          .fatal "Failed to save bytecode"
            { fs := fs0, trace := w.trace ++ evs ++ [.writeFile binFilePath bin] } ∧
        ∀ x ∈ evs ++ [Event.writeFile binFilePath bin], ∀ data,
          x ≠ .writeFile abiFilePath data) ∧
    (∀ fs0 evs fs1 e, cacheDirStep w.fs = some (fs0, evs) →
      writeNode binFilePath bin fs0 = .ok fs1 →
      writeNode abiFilePath abiBytes fs1 = .error e →
      saveContractArtifacts bin abiBytes w =
          .fatal "Failed to save ABI"
            { fs := fs1
              trace := w.trace ++ evs ++
                [.writeFile binFilePath bin, .writeFile abiFilePath abiBytes] } ∧
        (loadFromFile binFilePath
          { fs := fs1
            trace := w.trace ++ evs ++
              [.writeFile binFilePath bin, .writeFile abiFilePath abiBytes] }).1 = .ok bin) ∧
    (∀ (env : Env) (w0 : World) (key : PrivateKey) (balance : Int) (nonce : Nat)
        (gasPrice : Int),
      env.godotenvLoad = .ok () →
      env.dial env.INFURA_URL = .ok () →
      env.hexToECDSA (trimPrefix0x env.PRIVATE_KEY) = .ok key →
      env.balanceAt (env.pubkeyToAddress key) = .ok balance →
      env.pendingNonceAt (env.pubkeyToAddress key) = .ok nonce →
      env.suggestGasPrice = .ok gasPrice →
      compileContract env ["contracts", "Greeter.sol"]
          (((w0.record (.balanceAt (env.pubkeyToAddress key))).record
            (.pendingNonceAt (env.pubkeyToAddress key))).record .suggestGasPrice) =
        (.ok (bin, abiBytes), w) →
      ∀ msg w5, saveContractArtifacts bin abiBytes w = .fatal msg w5 →
        main env w0 = .fatal msg w5) := by
  refine ⟨?_, ?_, ?_, ?_, ?_⟩
  · rw [save_eval]
    cases hc : cacheDirStep w.fs with
    | none => simp [Outcome.isFatal]
    | some p =>
      obtain ⟨fs0, evs⟩ := p
      dsimp only
      cases hb : writeNode binFilePath bin fs0 with
      | error e => simp [Outcome.isFatal, hb]
      | ok fs1 =>
        dsimp only
        cases ha : writeNode abiFilePath abiBytes fs1 with
        | error e => simp [Outcome.isFatal, hb, ha]
        | ok fs2 => simp [Outcome.isFatal, hb, ha]
  · intro hc
    rw [save_eval, hc]
  · intro fs0 evs e hc hb
    refine ⟨by rw [save_eval, hc]; dsimp only; rw [hb], ?_⟩
    intro x hx data
    obtain ⟨_, hevs⟩ := cacheDirStep_some w.fs fs0 evs hc
    rcases hevs with rfl | rfl <;>
      simp only [List.cons_append, List.nil_append, List.mem_cons, List.mem_singleton,
        List.not_mem_nil, or_false] at hx
    · rcases hx with rfl | rfl <;> simp [binFilePath, abiFilePath]
    · rcases hx with rfl | rfl | rfl <;> simp [binFilePath, abiFilePath]
  · intro fs0 evs fs1 e hc hb ha
    refine ⟨by rw [save_eval, hc]; dsimp only; rw [hb]; dsimp only; rw [ha], ?_⟩
    exact loadFromFile_of_lookup binFilePath _ bin .readWrite
      (lookup_written "cache" "Greeter.bin" bin fs0 fs1 hb) (by decide)
  · intro env w0 key balance nonce gasPrice h1 h2 h3 h4 h5 h6 h7 msg w5 hs
    unfold main
    simp only [h1, h2, h3, ethclient.BalanceAt, h4, ethclient.PendingNonceAt, h5,
      ethclient.SuggestGasPrice, h6, h7, hs]

theorem saveContractArtifacts_first_failure_witness :
    (saveContractArtifacts (ascii "6080") (ascii "[]") blockedAbiWorld).message =
        some "Failed to save ABI" ∧
      (loadFromFile binFilePath
        (saveContractArtifacts (ascii "6080") (ascii "[]") blockedAbiWorld).world).1 =
        .ok (ascii "6080") ∧
      main sampleEnv { fs := blockedAbiFs, trace := [] } =
        .fatal "Failed to save ABI"
          (saveContractArtifacts (ascii "6080") (ascii "[]") blockedAbiWorld).world := by
  have h := (saveContractArtifacts_first_failure (ascii "6080") (ascii "[]")
    blockedAbiWorld).2.2.2.1 blockedAbiFs [.stat ["cache"]] _ .EISDIR rfl rfl rfl
  have hm := (saveContractArtifacts_first_failure (ascii "6080") (ascii "[]")
    blockedAbiWorld).2.2.2.2 sampleEnv { fs := blockedAbiFs, trace := [] } 1 5000000 7 1
    rfl rfl rfl rfl rfl rfl rfl _ _ h.1
  rw [hm, h.1]
  exact ⟨rfl, h.2, rfl⟩

/-- Whatever the error of the stat of `cache/address`, `deployOrLoadContract`
calls `bind.DeployContract`. -/
theorem deployOrLoadContract_any_stat_error (env : Env) (auth : TransactOpts) (parsedABI : ABI)
    (bin initialGreeting : GoString) (w : World) (e : Errno)
    (h : lookup addressFilePath w.fs = .error e) :
    Event.deployContract auth parsedABI (common.FromHex bin) initialGreeting ∈
      (deployOrLoadContract env auth parsedABI bin initialGreeting w).world.trace := by
  have h2 : lookup ["cache", "address"] w.fs = .error e := h
  unfold deployOrLoadContract
  simp only [os.Stat, h2, bind.DeployContract, World.record]
  cases env.deployContract auth parsedABI (common.FromHex bin) initialGreeting with
  | error err => simp [Outcome.world]
  | ok p =>
    obtain ⟨a, tx⟩ := p
    simp only [saveToFile, ioutil.WriteFile, World.record]
    cases writeNode ["cache", "address"] (common.Hex env.keccak256 a) w.fs with
    | error e2 => simp [Outcome.world]
    | ok fs2 => simp [Outcome.world]

/-- A read error after a successful stat is fatal, and nothing is deployed. -/
theorem deployOrLoadContract_read_error (env : Env) (auth : TransactOpts) (parsedABI : ABI)
    (bin initialGreeting : GoString) (w : World) (n : Node) (e : Errno)
    (h : lookup addressFilePath w.fs = .ok n) (hr : readNode n = .error e) :
    deployOrLoadContract env auth parsedABI bin initialGreeting w =
      .fatal "Failed to load contract address"
        { fs := w.fs
          trace := w.trace ++ [.stat addressFilePath, .readFile addressFilePath] } := by
  have h2 : lookup ["cache", "address"] w.fs = .ok n := h
  simp [deployOrLoadContract, os.Stat, loadFromFile, ioutil.ReadFile, World.record, h2, hr,
    addressFilePath]

/-- C4 (the code falls short of the claim): `cache/address` is a symbolic link
to itself, so the stat fails with ELOOP, an error other than "does not exist".
`deployOrLoadContract` takes this for a miss: it submits the deployment and
only then ends in `log.Fatalf`, when the address cannot be saved.  The same
happens in a whole run of `main`. -/
theorem deployOrLoadContract_stat_error_deploys :
    lookup addressFilePath loopFs = .error .ELOOP ∧
      os.IsNotExist (os.Stat addressFilePath { fs := loopFs, trace := [] }).1 = false ∧
      (deployOrLoadContract sampleEnv (createTransactor 1 7 1) { json := ascii "[]" }
          (ascii "6080") (ascii "Hello, World!") { fs := loopFs, trace := [] }).message =
        some "Failed to save contract address" ∧
      (deployOrLoadContract sampleEnv (createTransactor 1 7 1) { json := ascii "[]" }
          (ascii "6080") (ascii "Hello, World!") { fs := loopFs, trace := [] }).world.trace =
        [.stat addressFilePath,
          .deployContract (createTransactor 1 7 1) { json := ascii "[]" }
            (common.FromHex (ascii "6080")) (ascii "Hello, World!"),
          .writeFile addressFilePath (common.Hex sampleEnv.keccak256 sampleAddress)] ∧
      (main sampleEnv { fs := loopFs, trace := [] }).message =
        some "Failed to save contract address" ∧
      ((main sampleEnv { fs := loopFs, trace := [] }).world.trace.filter
        Event.isDeploy).length = 1 := by
  refine ⟨rfl, rfl, ?_, ?_, ?_, ?_⟩ <;> decide

/-! ## Claims about the transaction cost -/

theorem int64_of_lt (n : Nat) (h : n < 2 ^ 63) : int64 n = (n : Int) := by
  unfold int64
  have h1 : n % 2 ^ 64 = n := Nat.mod_eq_of_lt (by omega)
  rw [h1, if_pos h]

/-- Below `2^63` the cost is the exact product; this covers the gas limit
3000000 of `createTransactor`. -/
theorem calculateTransactionCost_exact (gasLimit : Nat) (gasPrice : Int) (h : gasLimit < 2 ^ 63) :
    calculateTransactionCost gasLimit gasPrice = (gasLimit : Int) * gasPrice := by
  unfold calculateTransactionCost
  rw [int64_of_lt gasLimit h]

/-- C10 (the code falls short of the claim): for the `uint64` gas limit
`2^63` and gas price 1, `calculateTransactionCost` returns `-2^63`, not the
product `2^63`; a zero balance then passes the check `balance < totalCost`. -/
theorem calculateTransactionCost_wraps :
    (9223372036854775808 : Nat) < 2 ^ 64 ∧
      calculateTransactionCost 9223372036854775808 1 = -9223372036854775808 ∧
      calculateTransactionCost 9223372036854775808 1 ≠ (9223372036854775808 : Int) * 1 ∧
      ¬ ((0 : Int) < calculateTransactionCost 9223372036854775808 1) := by
  decide

/-! ## Claims about reading the greeting -/

theorem toBigEndian_length (width n : Nat) : (toBigEndian width n).length = width := by
  induction width generalizing n with
  | zero => rfl
  | succ k ih => simp [toBigEndian, ih]

theorem setBytes_append_one (xs : GoString) (b : Byte) :
    setBytes (xs ++ [b]) = setBytes xs * 256 + b.val := by
  simp [setBytes, List.foldl_append]

/-- Reading back a big-endian word gives the value modulo `256 ^ width`. -/
theorem setBytes_toBigEndian (width n : Nat) :
    setBytes (toBigEndian width n) = n % 256 ^ width := by
  induction width generalizing n with
  | zero => simp [toBigEndian, setBytes, Nat.mod_one]
  | succ k ih =>
    rw [toBigEndian, setBytes_append_one, ih]
    have h1 : ((Fin.ofNat (n % 256) : Byte)).val = n % 256 := by
      simp [Fin.ofNat]
    rw [h1, pow_succ', Nat.mod_mul]
    ring

theorem addInt64_of_lt (n : Nat) (h : n + 64 < 2 ^ 63) :
    addInt64 64 (int64 n) = ((64 + n : Nat) : Int) := by
  rw [int64_of_lt n (by omega)]
  unfold addInt64
  have h1 : (((64 : Int) + (n : Int)) % 2 ^ 64).toNat = 64 + n := by
    have : ((64 : Int) + (n : Int)) % 2 ^ 64 = 64 + (n : Int) :=
      Int.emod_eq_of_lt (by omega) (by omega)
    rw [this]
    omega
  rw [h1, int64_of_lt (64 + n) (by omega)]

theorem slice_length_word (w1 w2 rest : GoString) (h1 : w1.length = 32) (h2 : w2.length = 32) :
    slice (w1 ++ w2 ++ rest) 32 64 = some w2 := by
  unfold slice
  have hlen : (64 : Int) ≤ ((w1 ++ w2 ++ rest).length : Int) := by
    simp only [List.length_append, h1, h2]
    omega
  rw [if_pos ⟨by omega, by omega, hlen⟩]
  have e1 : (32 : Int).toNat = w1.length := by rw [h1]; rfl
  have e2 : (64 : Int).toNat - w1.length = w2.length := by rw [h1, h2]; rfl
  rw [e1, e2, List.append_assoc, List.drop_left, List.take_left]

theorem slice_payload (w1 w2 s pad : GoString) (h1 : w1.length = 32) (h2 : w2.length = 32) :
    slice (w1 ++ w2 ++ s ++ pad) 64 ((64 + s.length : Nat) : Int) = some s := by
  unfold slice
  have hlen : (((64 + s.length : Nat) : Int)) ≤ ((w1 ++ w2 ++ s ++ pad).length : Int) := by
    simp only [List.length_append, h1, h2]
    omega
  rw [if_pos ⟨by omega, by omega, hlen⟩]
  have e1 : (64 : Int).toNat = (w1 ++ w2).length := by
    rw [List.length_append, h1, h2]; rfl
  have e2 : ((64 + s.length : Nat) : Int).toNat - (w1 ++ w2).length = s.length := by
    rw [List.length_append, h1, h2]
    omega
  rw [e1, e2, List.append_assoc (w1 ++ w2), List.drop_left, List.take_left]

/-- The decoding of client.go on an encoded string: the string without its
trailing NUL bytes. -/
theorem decodeGreeting_encoded (s : GoString) (hlen : (abiEncodeString s).length < 2 ^ 63) :
    client.decodeGreeting (abiEncodeString s) = some (trimRightNul s) := by
  have hs : s.length + 64 < 2 ^ 63 := by
    unfold abiEncodeString at hlen
    simp only [List.length_append, toBigEndian_length] at hlen
    omega
  unfold client.decodeGreeting abiEncodeString
  rw [List.append_assoc (toBigEndian 32 32 ++ toBigEndian 32 s.length),
    slice_length_word _ _ _ (toBigEndian_length 32 32) (toBigEndian_length 32 s.length)]
  dsimp only
  have hval : setBytes (toBigEndian 32 s.length) = s.length := by
    rw [setBytes_toBigEndian]
    exact Nat.mod_eq_of_lt (by
      have : (2 : Nat) ^ 63 < 256 ^ 32 := by norm_num
      omega)
  rw [hval, addInt64_of_lt s.length hs, ← List.append_assoc,
    slice_payload _ _ _ _ (toBigEndian_length 32 32) (toBigEndian_length 32 s.length)]

theorem trimRightNul_eq_self (s : GoString) (h : s.getLast? ≠ some 0) : trimRightNul s = s := by
  unfold trimRightNul
  rw [List.rdropWhile_eq_self_iff]
  intro hne
  have hl : s.getLast? = some (s.getLast hne) := List.getLast?_eq_getLast s hne
  intro hz
  apply h
  rw [hl]
  congr 1
  apply Fin.ext
  simpa using hz

/-- C9 as stated fails: the string `Hi` followed by a NUL byte is encoded and
decoded to `Hi`, which is not the string that was encoded. -/
theorem decodeGreeting_trailing_nul_lost :
    (abiEncodeString nulGreeting).length < 2 ^ 63 ∧
      client.decodeGreeting (abiEncodeString nulGreeting) = some (ascii "Hi") ∧
      client.decodeGreeting (abiEncodeString nulGreeting) ≠ some nulGreeting := by
  decide

/-- C9 (amended): for every string `s` whose ABI encoding fits a Go slice, the
decoding of client.go applied to that encoding yields `s` without its trailing
NUL bytes; it yields exactly `s` whenever `s` does not end in a NUL byte. -/
theorem decodeGreeting_roundtrip (s : GoString) (hlen : (abiEncodeString s).length < 2 ^ 63) :
    client.decodeGreeting (abiEncodeString s) = some (trimRightNul s) ∧
      (s.getLast? ≠ some 0 → client.decodeGreeting (abiEncodeString s) = some s) := by
  refine ⟨decodeGreeting_encoded s hlen, fun h => ?_⟩
  rw [decodeGreeting_encoded s hlen, trimRightNul_eq_self s h]

theorem decodeGreeting_roundtrip_witness :
    (abiEncodeString (ascii "Hello, Ethereum!")).length < 2 ^ 63 ∧
      (ascii "Hello, Ethereum!").getLast? ≠ some 0 ∧
      client.decodeGreeting (abiEncodeString (ascii "Hello, Ethereum!")) =
        some (ascii "Hello, Ethereum!") :=
  ⟨by decide, by decide,
    (decodeGreeting_roundtrip (ascii "Hello, Ethereum!") (by decide)).2 (by decide)⟩

/-! ## Claims about the compiler gateway -/

/-- C8 as stated fails: for a parsed output whose only contract is an interface
(its `bin` is empty), `compileContract` succeeds and returns an empty bytecode. -/
theorem compileContract_empty_bytecode :
    interfaceEnv.solc ["contracts", "Greeter.sol"] = .ok [] ∧
      interfaceEnv.jsonUnmarshal [] =
        .ok { Contracts := [(ascii "IGreeter", { ABI := some (ascii "[]"), Bin := [],
                                                  Metadata := [] })] } ∧
      (compileContract interfaceEnv ["contracts", "Greeter.sol"]
        { fs := emptyDir, trace := [] }).1 = .ok ([], ascii "[]") :=
  ⟨rfl, rfl, rfl⟩

/-- C8 (amended): for every successfully parsed compiler output,
`compileContract` fails with "no contract found in solc output" if the
contracts map is empty, and otherwise returns the `Bin` and the marshalled ABI
of one contract of the output, the one the map iteration visits first.  The ABI
bytes are not empty; nothing is said of the bytecode, which may be empty.
Assumed of `json.Marshal`: it succeeds on the raw ABI of a parsed contract and
never returns zero bytes. -/
theorem compileContract_first_contract (env : Env) (filePath : Path) (w : World)
    (out : GoString) (result : CompilationResult)
    (hrun : env.solc filePath = .ok out) (hparse : env.jsonUnmarshal out = .ok result)
    (hmarshal : ∀ m abiBytes, env.jsonMarshal m = .ok abiBytes → abiBytes ≠ [])
    (hvalid : ∀ entry ∈ result.Contracts, ∃ abiBytes, env.jsonMarshal entry.2.ABI = .ok abiBytes) :
    (result.Contracts = [] →
        (compileContract env filePath w).1 = .error "no contract found in solc output") ∧
      (result.Contracts ≠ [] →
        ∃ entry ∈ result.Contracts, result.Contracts.head? = some entry ∧
          ∃ abiBytes, (compileContract env filePath w).1 = .ok (entry.2.Bin, abiBytes) ∧
            env.jsonMarshal entry.2.ABI = .ok abiBytes ∧ abiBytes ≠ []) := by
  constructor
  · intro hempty
    simp [compileContract, hrun, hparse, hempty]
  · intro hne
    cases hc : result.Contracts with
    | nil => exact absurd hc hne
    | cons entry rest =>
      obtain ⟨abiBytes, habi⟩ := hvalid entry (by rw [hc]; exact List.mem_cons_self _ _)
      refine ⟨entry, List.mem_cons_self _ _, rfl, abiBytes, ?_, habi, hmarshal _ _ habi⟩
      obtain ⟨name, contract⟩ := entry
      simp [compileContract, hrun, hparse, hc, habi]

theorem sampleMarshal_nonempty (m : RawMessage) (abiBytes : GoString)
    (h : sampleMarshal m = .ok abiBytes) : abiBytes ≠ [] := by
  cases m with
  | none =>
    simp only [sampleMarshal, Except.ok.injEq] at h
    rw [← h]
    decide
  | some raw =>
    cases raw with
    | nil => simp [sampleMarshal] at h
    | cons b bs =>
      simp only [sampleMarshal, Except.ok.injEq] at h
      rw [← h]
      exact List.cons_ne_nil b bs

theorem compileContract_first_contract_witness :
    sampleEnv.solc ["contracts", "Greeter.sol"] = .ok [] ∧
      sampleEnv.jsonUnmarshal [] = .ok sampleResult ∧
      (∀ m abiBytes, sampleEnv.jsonMarshal m = .ok abiBytes → abiBytes ≠ []) ∧
      (∀ entry ∈ sampleResult.Contracts,
        ∃ abiBytes, sampleEnv.jsonMarshal entry.2.ABI = .ok abiBytes) ∧
      (sampleResult.Contracts ≠ [] →
        ∃ entry ∈ sampleResult.Contracts, sampleResult.Contracts.head? = some entry ∧
          ∃ abiBytes,
            (compileContract sampleEnv ["contracts", "Greeter.sol"]
              { fs := emptyDir, trace := [] }).1 = .ok (entry.2.Bin, abiBytes) ∧
            sampleEnv.jsonMarshal entry.2.ABI = .ok abiBytes ∧ abiBytes ≠ []) :=
  have hvalid : ∀ entry ∈ sampleResult.Contracts,
      ∃ abiBytes, sampleEnv.jsonMarshal entry.2.ABI = .ok abiBytes := by
    intro entry he
    simp only [sampleResult, List.mem_singleton] at he
    subst he
    exact ⟨ascii "[]", rfl⟩
  ⟨rfl, rfl, sampleMarshal_nonempty, hvalid,
    (compileContract_first_contract sampleEnv ["contracts", "Greeter.sol"]
      { fs := emptyDir, trace := [] } [] sampleResult rfl rfl sampleMarshal_nonempty hvalid).2⟩

/-! ## Claims about the bounds of the decoding -/

/-- An `int64` sum that stays in range is the exact sum. -/
theorem addInt64_exact (a b : Int) (h0 : 0 ≤ a + b) (h1 : a + b < 2 ^ 63) :
    addInt64 a b = a + b := by
  unfold addInt64
  have hmod : (a + b) % 2 ^ 64 = a + b := Int.emod_eq_of_lt h0 (by omega)
  rw [hmod, int64_of_lt (a + b).toNat (by omega)]
  omega

/-- The first slice of the decoding on a response of at least 64 bytes. -/
theorem slice_word_of_le (res : GoString) (h : 64 ≤ res.length) :
    slice res 32 64 = some ((res.drop 32).take 32) := by
  unfold slice
  rw [if_pos ⟨by omega, by omega, by omega⟩]
  rfl

/-- The first slice of the decoding panics on a response below 64 bytes. -/
theorem slice_word_of_lt (res : GoString) (h : res.length < 64) : slice res 32 64 = none := by
  unfold slice
  rw [if_neg]
  omega

/-- C11: for a response `res` (a Go slice, so shorter than `2^63` bytes) of at
least 64 bytes whose length word `L`, read from `res[32:64]`, satisfies
`0 ≤ L ≤ len(res) - 64`, the decoding of client.go makes no out-of-range slice:
it yields the `L` bytes from offset 64 without their trailing NUL bytes.  For
every response shorter than 64 bytes, the empty one included, the first slice
is out of range and `interactWithContract` ends in that panic. -/
theorem decodeGreeting_bounds (res : GoString) (hgo : res.length < 2 ^ 63) :
    (64 ≤ res.length → 0 ≤ lengthWord res → lengthWord res ≤ (res.length : Int) - 64 →
        client.decodeGreeting res =
          some (trimRightNul ((res.drop 64).take (lengthWord res).toNat))) ∧
      (res.length < 64 →
        client.decodeGreeting res = none ∧
          ∀ (env : Env) (contractAddress : Address) (privateKey : PrivateKey) (w : World)
            (tx : Hash) (auth : TransactOpts),
            bind.NewKeyedTransactorWithChainID privateKey (some 296) = .ok auth →
            env.transact contractAddress { auth with GasLimit := 3000000 }
                (ascii "setGreeting") (ascii "Hello, Ethereum!") = .ok tx →
            env.callContract contractAddress (common.FromHex (ascii "0xcfae3217")) = .ok res →
            (client.interactWithContract env contractAddress privateKey w).message =
              some "panic: slice bounds out of range") ∧
      client.decodeGreeting [] = none := by
  refine ⟨?_, ?_, rfl⟩
  · intro h64 h0 hL
    have hsum0 : 0 ≤ 64 + lengthWord res := by omega
    have hsum1 : 64 + lengthWord res < 2 ^ 63 := by omega
    unfold client.decodeGreeting
    rw [slice_word_of_le res h64]
    dsimp only
    have hw : int64 (setBytes ((res.drop 32).take 32)) = lengthWord res := rfl
    rw [hw, addInt64_exact 64 (lengthWord res) hsum0 hsum1]
    unfold slice
    rw [if_pos ⟨by omega, by omega, by omega⟩]
    have e1 : (64 : Int).toNat = 64 := rfl
    have e2 : (64 + lengthWord res).toNat - 64 = (lengthWord res).toNat := by omega
    rw [e1, e2]
  · intro hshort
    have hnone : client.decodeGreeting res = none := by
      unfold client.decodeGreeting
      rw [slice_word_of_lt res hshort]
    refine ⟨hnone, ?_⟩
    intro env contractAddress privateKey w tx auth hauth htx hcall
    unfold client.interactWithContract
    simp only [hauth, bind.Transact, htx, ethclient.CallContract, hcall, hnone,
      Outcome.message]

theorem decodeGreeting_bounds_witness :
    (abiEncodeString (ascii "Hello")).length < 2 ^ 63 ∧
      64 ≤ (abiEncodeString (ascii "Hello")).length ∧
      0 ≤ lengthWord (abiEncodeString (ascii "Hello")) ∧
      lengthWord (abiEncodeString (ascii "Hello")) ≤
        ((abiEncodeString (ascii "Hello")).length : Int) - 64 ∧
      client.decodeGreeting (abiEncodeString (ascii "Hello")) =
        some (trimRightNul (((abiEncodeString (ascii "Hello")).drop 64).take
          (lengthWord (abiEncodeString (ascii "Hello"))).toNat)) ∧
      client.decodeGreeting (abiEncodeString (ascii "Hello")) = some (ascii "Hello") ∧
      (client.interactWithContract emptyCallEnv sampleAddress 1
        { fs := emptyDir, trace := [] }).message = some "panic: slice bounds out of range" :=
  ⟨by decide, by decide, by decide, by decide,
    (decodeGreeting_bounds (abiEncodeString (ascii "Hello")) (by decide)).1
      (by decide) (by decide) (by decide),
    by decide,
    ((decodeGreeting_bounds [] (by decide)).2.1 (by decide)).2 emptyCallEnv sampleAddress 1
      { fs := emptyDir, trace := [] } [] _ rfl rfl rfl⟩

end Greeter
